import Mathlib

/-! # Crypto callback registry (wolfcrypt/src/cryptocb.c)

A shallow embedding of the device table `gCryptoDev`, of the registry
operations (`wc_CryptoCb_FindDevice`, `wc_CryptoCb_Init`,
`wc_CryptoCb_RegisterDevice`, `wc_CryptoCb_UnRegisterDevice`) and of the
thirteen dispatchers, followed by the properties proved about them.

Conventions of the embedding.

* Pointers (`byte*`, `word32*`, `void*`, function pointers) are addresses,
  natural numbers, with `NULL = 0`.
* `int` and `long` values are integers; they are only compared and copied.
* The global table is passed explicitly: a function from the eight slot
  indices to `CryptoCb` records.
* An object whose `devId` a dispatcher may read (`RsaKey`, `ecc_key`, `Aes`,
  `wc_Sha`, `wc_Sha256`, `WC_RNG`) is a record of its address and its
  `devId` field.
* The constants `INVALID_DEVID`, `BUFFER_E` and `NOT_COMPILED_IN` come from
  headers that are not part of the sources at hand; they are parameters of
  the definitions that use them.
* A callback is a function pointer; what calling it returns is given by an
  interpretation `run : CallbackEnv`.  A dispatcher returns its `int` result,
  the list of callback invocations it made, and the table it leaves.
-/

namespace WolfCryptoCb

/-! ## Data model -/

/-- An address; `NULL` is address zero. -/
abbrev Ptr := Nat

/-- The null pointer. -/
abbrev NULL : Ptr := 0

/-- The type `CryptoDevCallbackFunc`: a function pointer. -/
abbrev CryptoDevCallbackFunc := Ptr

/-- The capacity of the table, `#define MAX_CRYPTO_DEVID_CALLBACKS 8`. -/
abbrev MAX_CRYPTO_DEVID_CALLBACKS : Nat := 8

/-- One slot of the table: `typedef struct CryptoCb`. -/
structure CryptoCb where
  devId : Int
  cb : CryptoDevCallbackFunc
  ctx : Ptr
  deriving DecidableEq, Repr

/-- The table `static CryptoCb gCryptoDev[MAX_CRYPTO_DEVID_CALLBACKS]`. -/
abbrev Table := Fin MAX_CRYPTO_DEVID_CALLBACKS → CryptoCb

/-- The table as the C runtime provides it: static storage, all bytes zero. -/
def zeroTable : Table := fun _ => ⟨0, NULL, NULL⟩

/-! ## Registry operations -/

/-- The loop of `wc_CryptoCb_FindDevice`, from index `i` on, with at most `fuel`
iterations left. -/
def findDeviceLoop (g : Table) (devId : Int) : Nat → Nat → Option (Fin MAX_CRYPTO_DEVID_CALLBACKS)
  | 0, _ => none
  | fuel + 1, i =>
    if h : i < MAX_CRYPTO_DEVID_CALLBACKS then
      if (g ⟨i, h⟩).devId = devId then some ⟨i, h⟩
      else findDeviceLoop g devId fuel (i + 1)
    else none

/-- The function `wc_CryptoCb_FindDevice`: the address of the first slot whose
`devId` is the argument (here its index), or `NULL` (here `none`). -/
def wc_CryptoCb_FindDevice (g : Table) (devId : Int) : Option (Fin MAX_CRYPTO_DEVID_CALLBACKS) :=
  findDeviceLoop g devId MAX_CRYPTO_DEVID_CALLBACKS 0

/-- The function `wc_CryptoCb_Init`: every slot gets `devId = INVALID_DEVID`; the other
two fields are not written. -/
def wc_CryptoCb_Init (INVALID_DEVID : Int) (g : Table) : Table :=
  fun i => { g i with devId := INVALID_DEVID }

/-- The function `wc_CryptoCb_RegisterDevice`: the return value and the table after the
call. -/
def wc_CryptoCb_RegisterDevice (INVALID_DEVID BUFFER_E : Int) (g : Table)
    (devId : Int) (cb : CryptoDevCallbackFunc) (ctx : Ptr) : Int × Table :=
  let dev :=
    match wc_CryptoCb_FindDevice g devId with
    | some d => some d
    | none => wc_CryptoCb_FindDevice g INVALID_DEVID
  match dev with
  | none => (BUFFER_E, g)
  | some d => (0, Function.update g d { devId := devId, cb := cb, ctx := ctx })

/-- The function `wc_CryptoCb_UnRegisterDevice`: the slot found is zeroed
(`XMEMSET`) and its `devId` set to `INVALID_DEVID`. -/
def wc_CryptoCb_UnRegisterDevice (INVALID_DEVID : Int) (g : Table) (devId : Int) : Table :=
  match wc_CryptoCb_FindDevice g devId with
  | some d => Function.update g d { (⟨0, NULL, NULL⟩ : CryptoCb) with devId := INVALID_DEVID }
  | none => g

/-! ## Objects carrying a device identifier -/

/-- An RSA key object, referenced by `RsaKey*`: its address and its `devId` field. -/
structure RsaKey where
  addr : Ptr
  devId : Int
  deriving DecidableEq, Repr

/-- An ECC key object, referenced by `ecc_key*`: its address and its `devId` field. -/
structure ecc_key where
  addr : Ptr
  devId : Int
  deriving DecidableEq, Repr

/-- An AES state object, referenced by `Aes*`: its address and its `devId` field. -/
structure Aes where
  addr : Ptr
  devId : Int
  deriving DecidableEq, Repr

/-- A SHA-1 state object, referenced by `wc_Sha*`: its address and its `devId` field. -/
structure wc_Sha where
  addr : Ptr
  devId : Int
  deriving DecidableEq, Repr

/-- A SHA-256 state object, referenced by `wc_Sha256*`: its address and its `devId`. -/
structure wc_Sha256 where
  addr : Ptr
  devId : Int
  deriving DecidableEq, Repr

/-- A random number generator object, referenced by `WC_RNG*`: its address and its
`devId` field. -/
structure WC_RNG where
  addr : Ptr
  devId : Int
  deriving DecidableEq, Repr

/-! ## The operation descriptor `wc_CryptoInfo` -/

/-- Modelled from the spec: the enumeration behind `algo_type` is declared in a header
that is not among the sources; the spec names its four values PK, CIPHER, HASH and RNG,
the source uses them as `WC_ALGO_TYPE_*`. -/
inductive wc_AlgoType where
  | WC_ALGO_TYPE_HASH
  | WC_ALGO_TYPE_CIPHER
  | WC_ALGO_TYPE_PK
  | WC_ALGO_TYPE_RNG
  deriving DecidableEq, Repr

/-- Modelled from the spec: the enumeration behind `pk.type` is declared in a header
that is not among the sources; the spec lists the six operations under PK, the source
uses them as `WC_PK_TYPE_*`. -/
inductive wc_PkType where
  | WC_PK_TYPE_RSA
  | WC_PK_TYPE_RSA_KEYGEN
  | WC_PK_TYPE_EC_KEYGEN
  | WC_PK_TYPE_ECDH
  | WC_PK_TYPE_ECDSA_SIGN
  | WC_PK_TYPE_ECDSA_VERIFY
  deriving DecidableEq, Repr

/-- Modelled from the spec: the enumeration behind `cipher.type` is declared in a header
that is not among the sources; the source uses the two values below. -/
inductive wc_CipherType where
  | WC_CIPHER_AES_CBC
  | WC_CIPHER_AES_GCM
  deriving DecidableEq, Repr

/-- Modelled from the spec: the enumeration behind `hash.type` is declared in a header
that is not among the sources; the source uses the two values below. -/
inductive wc_HashType where
  | WC_HASH_TYPE_SHA
  | WC_HASH_TYPE_SHA256
  deriving DecidableEq, Repr

/-- The member `pk.rsa` of the descriptor. -/
structure RsaInfo where
  in_ : Ptr
  inLen : Nat
  out : Ptr
  outLen : Ptr
  type : Int
  key : RsaKey
  rng : WC_RNG
  deriving DecidableEq, Repr

/-- The member `pk.rsakg` of the descriptor. -/
structure RsaKgInfo where
  key : RsaKey
  size : Int
  e : Int
  rng : WC_RNG
  deriving DecidableEq, Repr

/-- The member `pk.eckg` of the descriptor. -/
structure EcKgInfo where
  rng : WC_RNG
  size : Int
  key : ecc_key
  curveId : Int
  deriving DecidableEq, Repr

/-- The member `pk.ecdh` of the descriptor. -/
structure EcdhInfo where
  private_key : ecc_key
  public_key : ecc_key
  out : Ptr
  outlen : Ptr
  deriving DecidableEq, Repr

/-- The member `pk.eccsign` of the descriptor. -/
structure EccSignInfo where
  in_ : Ptr
  inlen : Nat
  out : Ptr
  outlen : Ptr
  rng : WC_RNG
  key : ecc_key
  deriving DecidableEq, Repr

/-- The member `pk.eccverify` of the descriptor. -/
structure EccVerifyInfo where
  sig : Ptr
  siglen : Nat
  hash : Ptr
  hashlen : Nat
  res : Ptr
  key : ecc_key
  deriving DecidableEq, Repr

/-- The members `cipher.aesgcm_enc` and `cipher.aesgcm_dec` of the descriptor, which
have the same ten fields. -/
structure AesGcmInfo where
  aes : Aes
  out : Ptr
  in_ : Ptr
  sz : Nat
  iv : Ptr
  ivSz : Nat
  authTag : Ptr
  authTagSz : Nat
  authIn : Ptr
  authInSz : Nat
  deriving DecidableEq, Repr

/-- The member `cipher.aescbc` of the descriptor. -/
structure AesCbcInfo where
  aes : Aes
  out : Ptr
  in_ : Ptr
  sz : Nat
  deriving DecidableEq, Repr

/-- The union inside `pk`: the member the dispatcher wrote. -/
inductive PkUnion where
  | rsa (v : RsaInfo)
  | rsakg (v : RsaKgInfo)
  | eckg (v : EcKgInfo)
  | ecdh (v : EcdhInfo)
  | eccsign (v : EccSignInfo)
  | eccverify (v : EccVerifyInfo)
  deriving DecidableEq, Repr

/-- The union inside `cipher`: the member the dispatcher wrote. -/
inductive CipherUnion where
  | aesgcm_enc (v : AesGcmInfo)
  | aesgcm_dec (v : AesGcmInfo)
  | aescbc (v : AesCbcInfo)
  deriving DecidableEq, Repr

/-- The union inside `hash`: the member the dispatcher wrote. -/
inductive HashUnion where
  | sha1 (v : wc_Sha)
  | sha256 (v : wc_Sha256)
  deriving DecidableEq, Repr

/-- The member `pk` of the descriptor: the nested tag and the union. -/
structure PkInfo where
  type : wc_PkType
  u : PkUnion
  deriving DecidableEq, Repr

/-- The member `cipher` of the descriptor: the nested tag, the direction flag and the
union. -/
structure CipherInfo where
  type : wc_CipherType
  enc : Int
  u : CipherUnion
  deriving DecidableEq, Repr

/-- The member `hash` of the descriptor. -/
structure HashInfo where
  type : wc_HashType
  u : HashUnion
  in_ : Ptr
  inSz : Nat
  digest : Ptr
  deriving DecidableEq, Repr

/-- The member `rng` of the descriptor. -/
structure RngInfo where
  rng : WC_RNG
  out : Ptr
  sz : Nat
  deriving DecidableEq, Repr

/-- The top-level union of the descriptor: the member the dispatcher wrote. -/
inductive InfoUnion where
  | pk (v : PkInfo)
  | cipher (v : CipherInfo)
  | hash (v : HashInfo)
  | rng (v : RngInfo)
  deriving DecidableEq, Repr

/-- The descriptor `wc_CryptoInfo`: the tag `algo_type` and the union. -/
structure wc_CryptoInfo where
  algo_type : wc_AlgoType
  u : InfoUnion
  deriving DecidableEq, Repr

/-! ## Callbacks and dispatch results -/

/-- One call `cb(devId, &cryptoInfo, ctx)` made by a dispatcher. -/
structure Invocation where
  cb : CryptoDevCallbackFunc
  devId : Int
  info : wc_CryptoInfo
  ctx : Ptr
  deriving DecidableEq, Repr

/-- What the registered callbacks return: the function pointer called, then its three
arguments. -/
abbrev CallbackEnv := CryptoDevCallbackFunc → Int → wc_CryptoInfo → Ptr → Int

/-- What a dispatcher does: the value it returns, the callback invocations it makes, in
order, and the table it leaves. -/
structure DispatchResult where
  ret : Int
  calls : List Invocation
  table : Table

/-! ## The dispatchers

Each one follows its C text: `ret` starts as `NOT_COMPILED_IN`; the device is looked
up under the `devId` of the state object; when a slot is found and its `cb` is not
null, the descriptor is filled and `ret` becomes what the callback returns. -/

/-- The dispatcher `wc_CryptoCb_Rsa`. -/
def wc_CryptoCb_Rsa (NOT_COMPILED_IN : Int) (run : CallbackEnv) (g : Table)
    (in_ : Ptr) (inLen : Nat) (out : Ptr) (outLen : Ptr) (type : Int)
    (key : RsaKey) (rng : WC_RNG) : DispatchResult :=
  match wc_CryptoCb_FindDevice g key.devId with
  | some dev =>
    if (g dev).cb ≠ NULL then
      let cryptoInfo : wc_CryptoInfo :=
        { algo_type := .WC_ALGO_TYPE_PK,
          u := .pk { type := .WC_PK_TYPE_RSA,
                     u := .rsa { in_ := in_, inLen := inLen, out := out, outLen := outLen,
                                 type := type, key := key, rng := rng } } }
      { ret := run (g dev).cb key.devId cryptoInfo (g dev).ctx,
        calls := [{ cb := (g dev).cb, devId := key.devId, info := cryptoInfo,
                    ctx := (g dev).ctx }],
        table := g }
    else { ret := NOT_COMPILED_IN, calls := [], table := g }
  | none => { ret := NOT_COMPILED_IN, calls := [], table := g }

/-- The dispatcher `wc_CryptoCb_MakeRsaKey`. -/
def wc_CryptoCb_MakeRsaKey (NOT_COMPILED_IN : Int) (run : CallbackEnv) (g : Table)
    (key : RsaKey) (size : Int) (e : Int) (rng : WC_RNG) : DispatchResult :=
  match wc_CryptoCb_FindDevice g key.devId with
  | some dev =>
    if (g dev).cb ≠ NULL then
      let cryptoInfo : wc_CryptoInfo :=
        { algo_type := .WC_ALGO_TYPE_PK,
          u := .pk { type := .WC_PK_TYPE_RSA_KEYGEN,
                     u := .rsakg { key := key, size := size, e := e, rng := rng } } }
      { ret := run (g dev).cb key.devId cryptoInfo (g dev).ctx,
        calls := [{ cb := (g dev).cb, devId := key.devId, info := cryptoInfo,
                    ctx := (g dev).ctx }],
        table := g }
    else { ret := NOT_COMPILED_IN, calls := [], table := g }
  | none => { ret := NOT_COMPILED_IN, calls := [], table := g }

/-- The dispatcher `wc_CryptoCb_MakeEccKey`. -/
def wc_CryptoCb_MakeEccKey (NOT_COMPILED_IN : Int) (run : CallbackEnv) (g : Table)
    (rng : WC_RNG) (keySize : Int) (key : ecc_key) (curveId : Int) : DispatchResult :=
  match wc_CryptoCb_FindDevice g key.devId with
  | some dev =>
    if (g dev).cb ≠ NULL then
      let cryptoInfo : wc_CryptoInfo :=
        { algo_type := .WC_ALGO_TYPE_PK,
          u := .pk { type := .WC_PK_TYPE_EC_KEYGEN,
                     u := .eckg { rng := rng, size := keySize, key := key,
                                  curveId := curveId } } }
      { ret := run (g dev).cb key.devId cryptoInfo (g dev).ctx,
        calls := [{ cb := (g dev).cb, devId := key.devId, info := cryptoInfo,
                    ctx := (g dev).ctx }],
        table := g }
    else { ret := NOT_COMPILED_IN, calls := [], table := g }
  | none => { ret := NOT_COMPILED_IN, calls := [], table := g }

/-- The dispatcher `wc_CryptoCb_Ecdh`. -/
def wc_CryptoCb_Ecdh (NOT_COMPILED_IN : Int) (run : CallbackEnv) (g : Table)
    (private_key : ecc_key) (public_key : ecc_key) (out : Ptr) (outlen : Ptr) : DispatchResult :=
  match wc_CryptoCb_FindDevice g private_key.devId with
  | some dev =>
    if (g dev).cb ≠ NULL then
      let cryptoInfo : wc_CryptoInfo :=
        { algo_type := .WC_ALGO_TYPE_PK,
          u := .pk { type := .WC_PK_TYPE_ECDH,
                     u := .ecdh { private_key := private_key, public_key := public_key,
                                  out := out, outlen := outlen } } }
      { ret := run (g dev).cb private_key.devId cryptoInfo (g dev).ctx,
        calls := [{ cb := (g dev).cb, devId := private_key.devId, info := cryptoInfo,
                    ctx := (g dev).ctx }],
        table := g }
    else { ret := NOT_COMPILED_IN, calls := [], table := g }
  | none => { ret := NOT_COMPILED_IN, calls := [], table := g }

/-- The dispatcher `wc_CryptoCb_EccSign`. -/
def wc_CryptoCb_EccSign (NOT_COMPILED_IN : Int) (run : CallbackEnv) (g : Table)
    (in_ : Ptr) (inlen : Nat) (out : Ptr) (outlen : Ptr) (rng : WC_RNG)
    (key : ecc_key) : DispatchResult :=
  match wc_CryptoCb_FindDevice g key.devId with
  | some dev =>
    if (g dev).cb ≠ NULL then
      let cryptoInfo : wc_CryptoInfo :=
        { algo_type := .WC_ALGO_TYPE_PK,
          u := .pk { type := .WC_PK_TYPE_ECDSA_SIGN,
                     u := .eccsign { in_ := in_, inlen := inlen, out := out,
                                     outlen := outlen, rng := rng, key := key } } }
      { ret := run (g dev).cb key.devId cryptoInfo (g dev).ctx,
        calls := [{ cb := (g dev).cb, devId := key.devId, info := cryptoInfo,
                    ctx := (g dev).ctx }],
        table := g }
    else { ret := NOT_COMPILED_IN, calls := [], table := g }
  | none => { ret := NOT_COMPILED_IN, calls := [], table := g }

/-- The dispatcher `wc_CryptoCb_EccVerify`. -/
def wc_CryptoCb_EccVerify (NOT_COMPILED_IN : Int) (run : CallbackEnv) (g : Table)
    (sig : Ptr) (siglen : Nat) (hash : Ptr) (hashlen : Nat) (res : Ptr)
    (key : ecc_key) : DispatchResult :=
  match wc_CryptoCb_FindDevice g key.devId with
  | some dev =>
    if (g dev).cb ≠ NULL then
      let cryptoInfo : wc_CryptoInfo :=
        { algo_type := .WC_ALGO_TYPE_PK,
          u := .pk { type := .WC_PK_TYPE_ECDSA_VERIFY,
                     u := .eccverify { sig := sig, siglen := siglen, hash := hash,
                                       hashlen := hashlen, res := res, key := key } } }
      { ret := run (g dev).cb key.devId cryptoInfo (g dev).ctx,
        calls := [{ cb := (g dev).cb, devId := key.devId, info := cryptoInfo,
                    ctx := (g dev).ctx }],
        table := g }
    else { ret := NOT_COMPILED_IN, calls := [], table := g }
  | none => { ret := NOT_COMPILED_IN, calls := [], table := g }

/-- The dispatcher `wc_CryptoCb_AesGcmEncrypt`. -/
def wc_CryptoCb_AesGcmEncrypt (NOT_COMPILED_IN : Int) (run : CallbackEnv) (g : Table)
    (aes : Aes) (out : Ptr) (in_ : Ptr) (sz : Nat) (iv : Ptr) (ivSz : Nat)
    (authTag : Ptr) (authTagSz : Nat) (authIn : Ptr) (authInSz : Nat) : DispatchResult :=
  match wc_CryptoCb_FindDevice g aes.devId with
  | some dev =>
    if (g dev).cb ≠ NULL then
      let cryptoInfo : wc_CryptoInfo :=
        { algo_type := .WC_ALGO_TYPE_CIPHER,
          u := .cipher { type := .WC_CIPHER_AES_GCM, enc := 1,
                         u := .aesgcm_enc { aes := aes, out := out, in_ := in_, sz := sz,
                                            iv := iv, ivSz := ivSz, authTag := authTag,
                                            authTagSz := authTagSz, authIn := authIn,
                                            authInSz := authInSz } } }
      { ret := run (g dev).cb aes.devId cryptoInfo (g dev).ctx,
        calls := [{ cb := (g dev).cb, devId := aes.devId, info := cryptoInfo,
                    ctx := (g dev).ctx }],
        table := g }
    else { ret := NOT_COMPILED_IN, calls := [], table := g }
  | none => { ret := NOT_COMPILED_IN, calls := [], table := g }

/-- The dispatcher `wc_CryptoCb_AesGcmDecrypt`. -/
def wc_CryptoCb_AesGcmDecrypt (NOT_COMPILED_IN : Int) (run : CallbackEnv) (g : Table)
    (aes : Aes) (out : Ptr) (in_ : Ptr) (sz : Nat) (iv : Ptr) (ivSz : Nat)
    (authTag : Ptr) (authTagSz : Nat) (authIn : Ptr) (authInSz : Nat) : DispatchResult :=
  match wc_CryptoCb_FindDevice g aes.devId with
  | some dev =>
    if (g dev).cb ≠ NULL then
      let cryptoInfo : wc_CryptoInfo :=
        { algo_type := .WC_ALGO_TYPE_CIPHER,
          u := .cipher { type := .WC_CIPHER_AES_GCM, enc := 0,
                         u := .aesgcm_dec { aes := aes, out := out, in_ := in_, sz := sz,
                                            iv := iv, ivSz := ivSz, authTag := authTag,
                                            authTagSz := authTagSz, authIn := authIn,
                                            authInSz := authInSz } } }
      { ret := run (g dev).cb aes.devId cryptoInfo (g dev).ctx,
        calls := [{ cb := (g dev).cb, devId := aes.devId, info := cryptoInfo,
                    ctx := (g dev).ctx }],
        table := g }
    else { ret := NOT_COMPILED_IN, calls := [], table := g }
  | none => { ret := NOT_COMPILED_IN, calls := [], table := g }

/-- The dispatcher `wc_CryptoCb_AesCbcEncrypt`. -/
def wc_CryptoCb_AesCbcEncrypt (NOT_COMPILED_IN : Int) (run : CallbackEnv) (g : Table)
    (aes : Aes) (out : Ptr) (in_ : Ptr) (sz : Nat) : DispatchResult :=
  match wc_CryptoCb_FindDevice g aes.devId with
  | some dev =>
    if (g dev).cb ≠ NULL then
      let cryptoInfo : wc_CryptoInfo :=
        { algo_type := .WC_ALGO_TYPE_CIPHER,
          u := .cipher { type := .WC_CIPHER_AES_CBC, enc := 1,
                         u := .aescbc { aes := aes, out := out, in_ := in_, sz := sz } } }
      { ret := run (g dev).cb aes.devId cryptoInfo (g dev).ctx,
        calls := [{ cb := (g dev).cb, devId := aes.devId, info := cryptoInfo,
                    ctx := (g dev).ctx }],
        table := g }
    else { ret := NOT_COMPILED_IN, calls := [], table := g }
  | none => { ret := NOT_COMPILED_IN, calls := [], table := g }

/-- The dispatcher `wc_CryptoCb_AesCbcDecrypt`. -/
def wc_CryptoCb_AesCbcDecrypt (NOT_COMPILED_IN : Int) (run : CallbackEnv) (g : Table)
    (aes : Aes) (out : Ptr) (in_ : Ptr) (sz : Nat) : DispatchResult :=
  match wc_CryptoCb_FindDevice g aes.devId with
  | some dev =>
    if (g dev).cb ≠ NULL then
      let cryptoInfo : wc_CryptoInfo :=
        { algo_type := .WC_ALGO_TYPE_CIPHER,
          u := .cipher { type := .WC_CIPHER_AES_CBC, enc := 0,
                         u := .aescbc { aes := aes, out := out, in_ := in_, sz := sz } } }
      { ret := run (g dev).cb aes.devId cryptoInfo (g dev).ctx,
        calls := [{ cb := (g dev).cb, devId := aes.devId, info := cryptoInfo,
                    ctx := (g dev).ctx }],
        table := g }
    else { ret := NOT_COMPILED_IN, calls := [], table := g }
  | none => { ret := NOT_COMPILED_IN, calls := [], table := g }

/-- The dispatcher `wc_CryptoCb_ShaHash`. -/
def wc_CryptoCb_ShaHash (NOT_COMPILED_IN : Int) (run : CallbackEnv) (g : Table)
    (sha : wc_Sha) (in_ : Ptr) (inSz : Nat) (digest : Ptr) : DispatchResult :=
  match wc_CryptoCb_FindDevice g sha.devId with
  | some dev =>
    if (g dev).cb ≠ NULL then
      let cryptoInfo : wc_CryptoInfo :=
        { algo_type := .WC_ALGO_TYPE_HASH,
          u := .hash { type := .WC_HASH_TYPE_SHA, u := .sha1 sha, in_ := in_, inSz := inSz,
                       digest := digest } }
      { ret := run (g dev).cb sha.devId cryptoInfo (g dev).ctx,
        calls := [{ cb := (g dev).cb, devId := sha.devId, info := cryptoInfo,
                    ctx := (g dev).ctx }],
        table := g }
    else { ret := NOT_COMPILED_IN, calls := [], table := g }
  | none => { ret := NOT_COMPILED_IN, calls := [], table := g }

/-- The dispatcher `wc_CryptoCb_Sha256Hash`. -/
def wc_CryptoCb_Sha256Hash (NOT_COMPILED_IN : Int) (run : CallbackEnv) (g : Table)
    (sha256 : wc_Sha256) (in_ : Ptr) (inSz : Nat) (digest : Ptr) : DispatchResult :=
  match wc_CryptoCb_FindDevice g sha256.devId with
  | some dev =>
    if (g dev).cb ≠ NULL then
      let cryptoInfo : wc_CryptoInfo :=
        { algo_type := .WC_ALGO_TYPE_HASH,
          u := .hash { type := .WC_HASH_TYPE_SHA256, u := .sha256 sha256, in_ := in_,
                       inSz := inSz, digest := digest } }
      { ret := run (g dev).cb sha256.devId cryptoInfo (g dev).ctx,
        calls := [{ cb := (g dev).cb, devId := sha256.devId, info := cryptoInfo,
                    ctx := (g dev).ctx }],
        table := g }
    else { ret := NOT_COMPILED_IN, calls := [], table := g }
  | none => { ret := NOT_COMPILED_IN, calls := [], table := g }

/-- The dispatcher `wc_CryptoCb_RandomBlock`. -/
def wc_CryptoCb_RandomBlock (NOT_COMPILED_IN : Int) (run : CallbackEnv) (g : Table)
    (rng : WC_RNG) (out : Ptr) (sz : Nat) : DispatchResult :=
  match wc_CryptoCb_FindDevice g rng.devId with
  | some dev =>
    if (g dev).cb ≠ NULL then
      let cryptoInfo : wc_CryptoInfo :=
        { algo_type := .WC_ALGO_TYPE_RNG,
          u := .rng { rng := rng, out := out, sz := sz } }
      { ret := run (g dev).cb rng.devId cryptoInfo (g dev).ctx,
        calls := [{ cb := (g dev).cb, devId := rng.devId, info := cryptoInfo,
                    ctx := (g dev).ctx }],
        table := g }
    else { ret := NOT_COMPILED_IN, calls := [], table := g }
  | none => { ret := NOT_COMPILED_IN, calls := [], table := g }

/-! ## Calls, as data -/

/-- A call of one of the thirteen dispatchers, with its arguments in the order of the
C parameter list. -/
inductive DispatchCall where
  | Rsa (in_ : Ptr) (inLen : Nat) (out : Ptr) (outLen : Ptr) (type : Int) (key : RsaKey)
      (rng : WC_RNG)
  | MakeRsaKey (key : RsaKey) (size : Int) (e : Int) (rng : WC_RNG)
  | MakeEccKey (rng : WC_RNG) (keySize : Int) (key : ecc_key) (curveId : Int)
  | Ecdh (private_key : ecc_key) (public_key : ecc_key) (out : Ptr) (outlen : Ptr)
  | EccSign (in_ : Ptr) (inlen : Nat) (out : Ptr) (outlen : Ptr) (rng : WC_RNG)
      (key : ecc_key)
  | EccVerify (sig : Ptr) (siglen : Nat) (hash : Ptr) (hashlen : Nat) (res : Ptr)
      (key : ecc_key)
  | AesGcmEncrypt (aes : Aes) (out : Ptr) (in_ : Ptr) (sz : Nat) (iv : Ptr) (ivSz : Nat)
      (authTag : Ptr) (authTagSz : Nat) (authIn : Ptr) (authInSz : Nat)
  | AesGcmDecrypt (aes : Aes) (out : Ptr) (in_ : Ptr) (sz : Nat) (iv : Ptr) (ivSz : Nat)
      (authTag : Ptr) (authTagSz : Nat) (authIn : Ptr) (authInSz : Nat)
  | AesCbcEncrypt (aes : Aes) (out : Ptr) (in_ : Ptr) (sz : Nat)
  | AesCbcDecrypt (aes : Aes) (out : Ptr) (in_ : Ptr) (sz : Nat)
  | ShaHash (sha : wc_Sha) (in_ : Ptr) (inSz : Nat) (digest : Ptr)
  | Sha256Hash (sha256 : wc_Sha256) (in_ : Ptr) (inSz : Nat) (digest : Ptr)
  | RandomBlock (rng : WC_RNG) (out : Ptr) (sz : Nat)
  deriving DecidableEq, Repr

/-- Running a dispatcher call: the C function of that name on those arguments. -/
def dispatch (NOT_COMPILED_IN : Int) (run : CallbackEnv) (g : Table) :
    DispatchCall → DispatchResult
  | .Rsa in_ inLen out outLen type key rng =>
    wc_CryptoCb_Rsa NOT_COMPILED_IN run g in_ inLen out outLen type key rng
  | .MakeRsaKey key size e rng => wc_CryptoCb_MakeRsaKey NOT_COMPILED_IN run g key size e rng
  | .MakeEccKey rng keySize key curveId =>
    wc_CryptoCb_MakeEccKey NOT_COMPILED_IN run g rng keySize key curveId
  | .Ecdh private_key public_key out outlen =>
    wc_CryptoCb_Ecdh NOT_COMPILED_IN run g private_key public_key out outlen
  | .EccSign in_ inlen out outlen rng key =>
    wc_CryptoCb_EccSign NOT_COMPILED_IN run g in_ inlen out outlen rng key
  | .EccVerify sig siglen hash hashlen res key =>
    wc_CryptoCb_EccVerify NOT_COMPILED_IN run g sig siglen hash hashlen res key
  | .AesGcmEncrypt aes out in_ sz iv ivSz authTag authTagSz authIn authInSz =>
    wc_CryptoCb_AesGcmEncrypt NOT_COMPILED_IN run g aes out in_ sz iv ivSz authTag authTagSz
      authIn authInSz
  | .AesGcmDecrypt aes out in_ sz iv ivSz authTag authTagSz authIn authInSz =>
    wc_CryptoCb_AesGcmDecrypt NOT_COMPILED_IN run g aes out in_ sz iv ivSz authTag authTagSz
      authIn authInSz
  | .AesCbcEncrypt aes out in_ sz => wc_CryptoCb_AesCbcEncrypt NOT_COMPILED_IN run g aes out in_ sz
  | .AesCbcDecrypt aes out in_ sz => wc_CryptoCb_AesCbcDecrypt NOT_COMPILED_IN run g aes out in_ sz
  | .ShaHash sha in_ inSz digest => wc_CryptoCb_ShaHash NOT_COMPILED_IN run g sha in_ inSz digest
  | .Sha256Hash sha256 in_ inSz digest =>
    wc_CryptoCb_Sha256Hash NOT_COMPILED_IN run g sha256 in_ inSz digest
  | .RandomBlock rng out sz => wc_CryptoCb_RandomBlock NOT_COMPILED_IN run g rng out sz

/-- The `devId` carried by the state object of a dispatcher call: the key, cipher, hash
or generator the operation is about (for ECDH, the private key). -/
def DispatchCall.devId : DispatchCall → Int
  | .Rsa _ _ _ _ _ key _ => key.devId
  | .MakeRsaKey key _ _ _ => key.devId
  | .MakeEccKey _ _ key _ => key.devId
  | .Ecdh private_key _ _ _ => private_key.devId
  | .EccSign _ _ _ _ _ key => key.devId
  | .EccVerify _ _ _ _ _ key => key.devId
  | .AesGcmEncrypt aes _ _ _ _ _ _ _ _ _ => aes.devId
  | .AesGcmDecrypt aes _ _ _ _ _ _ _ _ _ => aes.devId
  | .AesCbcEncrypt aes _ _ _ => aes.devId
  | .AesCbcDecrypt aes _ _ _ => aes.devId
  | .ShaHash sha _ _ _ => sha.devId
  | .Sha256Hash sha256 _ _ _ => sha256.devId
  | .RandomBlock rng _ _ => rng.devId

/-- The thirteen dispatchers, by name. -/
inductive Dispatcher where
  | Rsa | MakeRsaKey | MakeEccKey | Ecdh | EccSign | EccVerify
  | AesGcmEncrypt | AesGcmDecrypt | AesCbcEncrypt | AesCbcDecrypt
  | ShaHash | Sha256Hash | RandomBlock
  deriving DecidableEq, Repr

/-- The dispatcher a call is a call of. -/
def DispatchCall.dispatcher : DispatchCall → Dispatcher
  | .Rsa .. => .Rsa
  | .MakeRsaKey .. => .MakeRsaKey
  | .MakeEccKey .. => .MakeEccKey
  | .Ecdh .. => .Ecdh
  | .EccSign .. => .EccSign
  | .EccVerify .. => .EccVerify
  | .AesGcmEncrypt .. => .AesGcmEncrypt
  | .AesGcmDecrypt .. => .AesGcmDecrypt
  | .AesCbcEncrypt .. => .AesCbcEncrypt
  | .AesCbcDecrypt .. => .AesCbcDecrypt
  | .ShaHash .. => .ShaHash
  | .Sha256Hash .. => .Sha256Hash
  | .RandomBlock .. => .RandomBlock

/-- A call of one of the three public registry functions. -/
inductive RegistryCall where
  | init
  | register (devId : Int) (cb : CryptoDevCallbackFunc) (ctx : Ptr)
  | unregister (devId : Int)
  deriving DecidableEq, Repr

/-- The table after one registry call. -/
def RegistryCall.apply (INVALID_DEVID BUFFER_E : Int) (g : Table) : RegistryCall → Table
  | .init => wc_CryptoCb_Init INVALID_DEVID g
  | .register devId cb ctx => (wc_CryptoCb_RegisterDevice INVALID_DEVID BUFFER_E g devId cb ctx).2
  | .unregister devId => wc_CryptoCb_UnRegisterDevice INVALID_DEVID g devId

/-- The table after a sequence of registry calls, made in order. -/
def runCalls (INVALID_DEVID BUFFER_E : Int) (g : Table) (ops : List RegistryCall) : Table :=
  ops.foldl (RegistryCall.apply INVALID_DEVID BUFFER_E) g

/-- A registration request: the three arguments of `wc_CryptoCb_RegisterDevice`. -/
structure Registration where
  devId : Int
  cb : CryptoDevCallbackFunc
  ctx : Ptr
  deriving DecidableEq, Repr

/-- A sequence of `wc_CryptoCb_RegisterDevice` calls, made in order: the values returned,
in order, and the table after the last call. -/
def registerAll (INVALID_DEVID BUFFER_E : Int) : Table → List Registration → List Int × Table
  | g, [] => ([], g)
  | g, r :: rs =>
    let res := wc_CryptoCb_RegisterDevice INVALID_DEVID BUFFER_E g r.devId r.cb r.ctx
    let rest := registerAll INVALID_DEVID BUFFER_E res.2 rs
    (res.1 :: rest.1, rest.2)

/-! ## Notions the properties are stated with -/

/-- The most recent registration of `id` in a sequence of requests. -/
def lastRegistration (id : Int) (rs : List Registration) : Option Registration :=
  rs.reverse.find? (fun r => r.devId = id)

/-- The number of slots whose `devId` is not the sentinel. -/
def occupancy (INVALID_DEVID : Int) (g : Table) : Nat :=
  (Finset.univ.filter (fun i => (g i).devId ≠ INVALID_DEVID)).card

/-- The effect of one registry call on whether a registration of `id` is in effect. -/
def inEffectStep (id : Int) (b : Bool) : RegistryCall → Bool
  | .init => false
  | .register devId _ _ => if devId = id then true else b
  | .unregister devId => if devId = id then false else b

/-- Whether a registration of `id` is in effect after the calls `ops`:
`wc_CryptoCb_RegisterDevice` was called with `id`, and neither
`wc_CryptoCb_UnRegisterDevice(id)` nor `wc_CryptoCb_Init()` was called since. -/
def registrationInEffect (id : Int) (ops : List RegistryCall) : Bool :=
  ops.foldl (inEffectStep id) false

/-- The nested tag of a descriptor: the `type` of the member `pk`, `cipher` or `hash`. -/
inductive NestedType where
  | pk (t : wc_PkType)
  | cipher (t : wc_CipherType)
  | hash (t : wc_HashType)
  deriving DecidableEq, Repr

/-- The tags of a descriptor: `algo_type`, the nested `type` where the member written has
one, and the direction flag `enc` where the member written has one. -/
def wc_CryptoInfo.tags (info : wc_CryptoInfo) : wc_AlgoType × Option NestedType × Option Int :=
  match info.u with
  | .pk v => (info.algo_type, some (.pk v.type), none)
  | .cipher v => (info.algo_type, some (.cipher v.type), some v.enc)
  | .hash v => (info.algo_type, some (.hash v.type), none)
  | .rng _ => (info.algo_type, none, none)

/-- The tags each dispatcher is to set, as the specification lists them. -/
def expectedTags : Dispatcher → wc_AlgoType × Option NestedType × Option Int
  | .Rsa => (.WC_ALGO_TYPE_PK, some (.pk .WC_PK_TYPE_RSA), none)
  | .MakeRsaKey => (.WC_ALGO_TYPE_PK, some (.pk .WC_PK_TYPE_RSA_KEYGEN), none)
  | .MakeEccKey => (.WC_ALGO_TYPE_PK, some (.pk .WC_PK_TYPE_EC_KEYGEN), none)
  | .Ecdh => (.WC_ALGO_TYPE_PK, some (.pk .WC_PK_TYPE_ECDH), none)
  | .EccSign => (.WC_ALGO_TYPE_PK, some (.pk .WC_PK_TYPE_ECDSA_SIGN), none)
  | .EccVerify => (.WC_ALGO_TYPE_PK, some (.pk .WC_PK_TYPE_ECDSA_VERIFY), none)
  | .AesGcmEncrypt => (.WC_ALGO_TYPE_CIPHER, some (.cipher .WC_CIPHER_AES_GCM), some 1)
  | .AesGcmDecrypt => (.WC_ALGO_TYPE_CIPHER, some (.cipher .WC_CIPHER_AES_GCM), some 0)
  | .AesCbcEncrypt => (.WC_ALGO_TYPE_CIPHER, some (.cipher .WC_CIPHER_AES_CBC), some 1)
  | .AesCbcDecrypt => (.WC_ALGO_TYPE_CIPHER, some (.cipher .WC_CIPHER_AES_CBC), some 0)
  | .ShaHash => (.WC_ALGO_TYPE_HASH, some (.hash .WC_HASH_TYPE_SHA), none)
  | .Sha256Hash => (.WC_ALGO_TYPE_HASH, some (.hash .WC_HASH_TYPE_SHA256), none)
  | .RandomBlock => (.WC_ALGO_TYPE_RNG, none, none)

/-- The fields of a descriptor equal the arguments of a dispatcher call: the member of
the union is the one of that operation, and each of its fields is the argument of the
same name, as the specification lists them per operation. -/
def fieldsEqualArguments : DispatchCall → wc_CryptoInfo → Prop
  | .Rsa in_ inLen out outLen type key rng, ⟨_, .pk ⟨_, .rsa v⟩⟩ =>
    v.in_ = in_ ∧ v.inLen = inLen ∧ v.out = out ∧ v.outLen = outLen ∧ v.type = type ∧
      v.key = key ∧ v.rng = rng
  | .MakeRsaKey key size e rng, ⟨_, .pk ⟨_, .rsakg v⟩⟩ =>
    v.key = key ∧ v.size = size ∧ v.e = e ∧ v.rng = rng
  | .MakeEccKey rng keySize key curveId, ⟨_, .pk ⟨_, .eckg v⟩⟩ =>
    v.rng = rng ∧ v.size = keySize ∧ v.key = key ∧ v.curveId = curveId
  | .Ecdh private_key public_key out outlen, ⟨_, .pk ⟨_, .ecdh v⟩⟩ =>
    v.private_key = private_key ∧ v.public_key = public_key ∧ v.out = out ∧ v.outlen = outlen
  | .EccSign in_ inlen out outlen rng key, ⟨_, .pk ⟨_, .eccsign v⟩⟩ =>
    v.in_ = in_ ∧ v.inlen = inlen ∧ v.out = out ∧ v.outlen = outlen ∧ v.rng = rng ∧ v.key = key
  | .EccVerify sig siglen hash hashlen res key, ⟨_, .pk ⟨_, .eccverify v⟩⟩ =>
    v.sig = sig ∧ v.siglen = siglen ∧ v.hash = hash ∧ v.hashlen = hashlen ∧ v.res = res ∧
      v.key = key
  | .AesGcmEncrypt aes out in_ sz iv ivSz authTag authTagSz authIn authInSz,
      ⟨_, .cipher ⟨_, _, .aesgcm_enc v⟩⟩ =>
    v.aes = aes ∧ v.out = out ∧ v.in_ = in_ ∧ v.sz = sz ∧ v.iv = iv ∧ v.ivSz = ivSz ∧
      v.authTag = authTag ∧ v.authTagSz = authTagSz ∧ v.authIn = authIn ∧
      v.authInSz = authInSz
  | .AesGcmDecrypt aes out in_ sz iv ivSz authTag authTagSz authIn authInSz,
      ⟨_, .cipher ⟨_, _, .aesgcm_dec v⟩⟩ =>
    v.aes = aes ∧ v.out = out ∧ v.in_ = in_ ∧ v.sz = sz ∧ v.iv = iv ∧ v.ivSz = ivSz ∧
      v.authTag = authTag ∧ v.authTagSz = authTagSz ∧ v.authIn = authIn ∧
      v.authInSz = authInSz
  | .AesCbcEncrypt aes out in_ sz, ⟨_, .cipher ⟨_, _, .aescbc v⟩⟩ =>
    v.aes = aes ∧ v.out = out ∧ v.in_ = in_ ∧ v.sz = sz
  | .AesCbcDecrypt aes out in_ sz, ⟨_, .cipher ⟨_, _, .aescbc v⟩⟩ =>
    v.aes = aes ∧ v.out = out ∧ v.in_ = in_ ∧ v.sz = sz
  | .ShaHash sha in_ inSz digest, ⟨_, .hash ⟨_, .sha1 v, hin, hinSz, hdigest⟩⟩ =>
    v = sha ∧ hin = in_ ∧ hinSz = inSz ∧ hdigest = digest
  | .Sha256Hash sha256 in_ inSz digest, ⟨_, .hash ⟨_, .sha256 v, hin, hinSz, hdigest⟩⟩ =>
    v = sha256 ∧ hin = in_ ∧ hinSz = inSz ∧ hdigest = digest
  | .RandomBlock rng out sz, ⟨_, .rng v⟩ => v.rng = rng ∧ v.out = out ∧ v.sz = sz
  | _, _ => False

/-! ## Invariants used in the proofs -/

/-- At most one slot of the table carries a given identifier other than the sentinel. -/
def AtMostOnePerId (INVALID_DEVID : Int) (g : Table) : Prop :=
  ∀ d : Int, d ≠ INVALID_DEVID → ∀ i j : Fin MAX_CRYPTO_DEVID_CALLBACKS,
    (g i).devId = d → (g j).devId = d → i = j

/-- A slot carrying `id` is there only while the flag `b` (a registration of `id` is in
effect) is set. -/
def SlotImpliesInEffect (id : Int) (g : Table) (b : Bool) : Prop :=
  (∃ j, (g j).devId = id) → b = true

/-- The state of the table after the registrations `ps`, made from a table of sentinel
slots: every slot is a sentinel or carries a registered identifier, no identifier other
than the sentinel is carried twice, and every registered identifier has a slot with the
callback and context of its most recent registration. -/
def RegisteredInv (INVALID_DEVID : Int) (t : Table) (ps : List Registration) : Prop :=
  (∀ i, (t i).devId = INVALID_DEVID ∨ (t i).devId ∈ ps.map Registration.devId) ∧
  (∀ i j, (t i).devId = (t j).devId → (t i).devId ≠ INVALID_DEVID → i = j) ∧
  (∀ id r, lastRegistration id ps = some r → ∃ k, t k = ⟨id, r.cb, r.ctx⟩)

/-- Every slot is a sentinel slot or carries an identifier other than the sentinel
together with a callback that is not null. -/
def SentinelOrCallback (INVALID_DEVID : Int) (g : Table) : Prop :=
  ∀ i, (g i).devId = INVALID_DEVID ∨ ((g i).devId ≠ INVALID_DEVID ∧ (g i).cb ≠ NULL)

/-! ## Concrete inputs

The header values of wolfSSL are used where a concrete constant is needed:
`INVALID_DEVID = -2`, `BUFFER_E = -132`, `NOT_COMPILED_IN = -174`. -/

/-- A full table: slot `i` carries identifier `i + 1`, callback `100 + i`, context
`200 + i`. -/
def fullTable : Table := fun i => ⟨i.val + 1, 100 + i.val, 200 + i.val⟩

/-- A callback interpretation: every callback returns the sum of its address, the
identifier and the context address it is called with. -/
def sumRun : CallbackEnv := fun cb devId _ ctx => cb + devId + ctx

/-- Nine registrations over eight distinct identifiers; identifier 1 is registered
twice. -/
def eightThenAgain : List Registration :=
  [⟨1, 11, 21⟩, ⟨2, 12, 22⟩, ⟨3, 13, 23⟩, ⟨4, 14, 24⟩, ⟨5, 15, 25⟩, ⟨6, 16, 26⟩, ⟨7, 17, 27⟩,
   ⟨8, 18, 28⟩, ⟨1, 31, 41⟩]

/-- An RSA call on a key whose `devId` is 3. -/
def rsaCallOnThree : DispatchCall := .Rsa 1 2 3 4 5 ⟨6, 3⟩ ⟨7, 0⟩

/-- The descriptor `wc_CryptoCb_Rsa` builds for `rsaCallOnThree`. -/
def rsaInfoOnThree : wc_CryptoInfo :=
  { algo_type := .WC_ALGO_TYPE_PK,
    u := .pk { type := .WC_PK_TYPE_RSA,
               u := .rsa { in_ := 1, inLen := 2, out := 3, outLen := 4, type := 5,
                           key := ⟨6, 3⟩, rng := ⟨7, 0⟩ } } }

/-- A callback interpretation: on an ECDH descriptor every callback returns the `devId`
it reads from the public key, on any other descriptor 0. -/
def publicKeyDevIdRun : CallbackEnv := fun _ _ info _ =>
  match info.u with
  | .pk ⟨_, .ecdh v⟩ => v.public_key.devId
  | _ => 0

/-! # Properties -/

/-! ## The lookup -/

/-- The loop, with enough iterations left, returns slot `k` exactly when `k` is the
first slot from `i` on whose `devId` is `d`. -/
theorem findDeviceLoop_some_iff (g : Table) (d : Int) (fuel i : Nat)
    (hf : MAX_CRYPTO_DEVID_CALLBACKS ≤ fuel + i) (k : Fin MAX_CRYPTO_DEVID_CALLBACKS) :
    findDeviceLoop g d fuel i = some k ↔
      i ≤ k.val ∧ (g k).devId = d ∧
        ∀ j : Fin MAX_CRYPTO_DEVID_CALLBACKS, i ≤ j.val → j.val < k.val → (g j).devId ≠ d := by
  induction fuel generalizing i with
  | zero =>
    simp only [findDeviceLoop]
    constructor
    · intro h; cases h
    · rintro ⟨h1, -, -⟩
      have := k.isLt
      omega
  | succ n ih =>
    unfold findDeviceLoop
    by_cases hi : i < MAX_CRYPTO_DEVID_CALLBACKS
    · rw [dif_pos hi]
      by_cases hd : (g ⟨i, hi⟩).devId = d
      · rw [if_pos hd]
        constructor
        · intro h
          have hk : (⟨i, hi⟩ : Fin MAX_CRYPTO_DEVID_CALLBACKS) = k := Option.some.inj h
          subst hk
          exact ⟨le_refl _, hd, fun j h1 h2 => absurd h2 (by simpa using h1)⟩
        · rintro ⟨h1, h2, h3⟩
          rcases Nat.eq_or_lt_of_le h1 with h | h
          · congr 1
            exact Fin.ext h
          · exact absurd hd (h3 ⟨i, hi⟩ (le_refl _) h)
      · rw [if_neg hd, ih (i + 1) (by omega)]
        constructor
        · rintro ⟨h1, h2, h3⟩
          refine ⟨by omega, h2, fun j hj1 hj2 => ?_⟩
          rcases Nat.eq_or_lt_of_le hj1 with h | h
          · have : j = ⟨i, hi⟩ := Fin.ext h.symm
            rw [this]; exact hd
          · exact h3 j h hj2
        · rintro ⟨h1, h2, h3⟩
          have hne : i ≠ k.val := by
            intro h
            apply hd
            have : (⟨i, hi⟩ : Fin MAX_CRYPTO_DEVID_CALLBACKS) = k := Fin.ext h
            rw [this]; exact h2
          exact ⟨by omega, h2, fun j hj1 hj2 => h3 j (by omega) hj2⟩
    · rw [dif_neg hi]
      constructor
      · intro h; cases h
      · rintro ⟨h1, -, -⟩
        have := k.isLt
        omega

/-- The loop, with enough iterations left, returns nothing exactly when no slot from `i`
on has `devId` equal to `d`. -/
theorem findDeviceLoop_none_iff (g : Table) (d : Int) (fuel i : Nat)
    (hf : MAX_CRYPTO_DEVID_CALLBACKS ≤ fuel + i) :
    findDeviceLoop g d fuel i = none ↔
      ∀ j : Fin MAX_CRYPTO_DEVID_CALLBACKS, i ≤ j.val → (g j).devId ≠ d := by
  constructor
  · intro h j hj hd
    -- the least index from i on with that devId would be found
    have hex : ∃ n, i ≤ n ∧ ∃ hn : n < MAX_CRYPTO_DEVID_CALLBACKS, (g ⟨n, hn⟩).devId = d :=
      ⟨j.val, hj, j.isLt, hd⟩
    classical
    obtain ⟨h1, h2, h3⟩ := Nat.find_spec hex
    have : findDeviceLoop g d fuel i = some ⟨Nat.find hex, h2⟩ := by
      rw [findDeviceLoop_some_iff g d fuel i hf]
      refine ⟨h1, h3, fun j' hj1 hj2 hd' => ?_⟩
      exact Nat.find_min hex hj2 ⟨hj1, j'.isLt, hd'⟩
    rw [h] at this
    cases this
  · intro h
    cases hr : findDeviceLoop g d fuel i with
    | none => rfl
    | some k =>
      rw [findDeviceLoop_some_iff g d fuel i hf] at hr
      exact absurd hr.2.1 (h k hr.1)

/-- The lookup returns slot `k` exactly when `k` is the first slot whose `devId` is `d`. -/
theorem find_some_iff (g : Table) (d : Int) (k : Fin MAX_CRYPTO_DEVID_CALLBACKS) :
    wc_CryptoCb_FindDevice g d = some k ↔
      (g k).devId = d ∧ ∀ j : Fin MAX_CRYPTO_DEVID_CALLBACKS, j < k → (g j).devId ≠ d := by
  unfold wc_CryptoCb_FindDevice
  rw [findDeviceLoop_some_iff g d _ 0 (by omega)]
  constructor
  · rintro ⟨-, h2, h3⟩
    exact ⟨h2, fun j hj => h3 j (Nat.zero_le _) hj⟩
  · rintro ⟨h2, h3⟩
    exact ⟨Nat.zero_le _, h2, fun j _ hj => h3 j hj⟩

/-- The lookup finds nothing exactly when no slot has `devId` equal to `d`. -/
theorem find_none_iff (g : Table) (d : Int) :
    wc_CryptoCb_FindDevice g d = none ↔
      ∀ j : Fin MAX_CRYPTO_DEVID_CALLBACKS, (g j).devId ≠ d := by
  unfold wc_CryptoCb_FindDevice
  rw [findDeviceLoop_none_iff g d _ 0 (by omega)]
  exact ⟨fun h j => h j (Nat.zero_le _), fun h j _ => h j⟩

/-- The slot the lookup returns carries the identifier looked up. -/
theorem find_some_devId {g : Table} {d : Int} {k : Fin MAX_CRYPTO_DEVID_CALLBACKS}
    (h : wc_CryptoCb_FindDevice g d = some k) : (g k).devId = d :=
  ((find_some_iff g d k).1 h).1

/-- When some slot carries `d`, the lookup of `d` returns a slot. -/
theorem find_isSome_of_slot {g : Table} {d : Int} (j : Fin MAX_CRYPTO_DEVID_CALLBACKS)
    (h : (g j).devId = d) : ∃ k, wc_CryptoCb_FindDevice g d = some k := by
  cases hr : wc_CryptoCb_FindDevice g d with
  | some k => exact ⟨k, rfl⟩
  | none => exact absurd h ((find_none_iff g d).1 hr j)

/-- The lookup depends on the `devId` fields only. -/
theorem find_congr_devId {g g2 : Table} (h : ∀ j, (g2 j).devId = (g j).devId) (d : Int) :
    wc_CryptoCb_FindDevice g2 d = wc_CryptoCb_FindDevice g d := by
  cases hr : wc_CryptoCb_FindDevice g d with
  | some k =>
    rw [find_some_iff] at hr ⊢
    exact ⟨(h k).trans hr.1, fun j hj => by rw [h j]; exact hr.2 j hj⟩
  | none =>
    rw [find_none_iff] at hr ⊢
    exact fun j => by rw [h j]; exact hr j

/-! ## The registry functions, case by case -/

/-- Registration when the identifier is already in the table. -/
theorem register_of_find_some {I B : Int} {g : Table} {d : Int} {cb : CryptoDevCallbackFunc}
    {ctx : Ptr} {k : Fin MAX_CRYPTO_DEVID_CALLBACKS} (h : wc_CryptoCb_FindDevice g d = some k) :
    wc_CryptoCb_RegisterDevice I B g d cb ctx = (0, Function.update g k ⟨d, cb, ctx⟩) := by
  simp [wc_CryptoCb_RegisterDevice, h]

/-- Registration of a new identifier when a sentinel slot exists. -/
theorem register_of_find_free {I B : Int} {g : Table} {d : Int} {cb : CryptoDevCallbackFunc}
    {ctx : Ptr} {k : Fin MAX_CRYPTO_DEVID_CALLBACKS} (h : wc_CryptoCb_FindDevice g d = none)
    (hI : wc_CryptoCb_FindDevice g I = some k) :
    wc_CryptoCb_RegisterDevice I B g d cb ctx = (0, Function.update g k ⟨d, cb, ctx⟩) := by
  simp [wc_CryptoCb_RegisterDevice, h, hI]

/-- Registration when neither the identifier nor a sentinel slot is found. -/
theorem register_of_find_none {I B : Int} {g : Table} {d : Int} {cb : CryptoDevCallbackFunc}
    {ctx : Ptr} (h : wc_CryptoCb_FindDevice g d = none)
    (hI : wc_CryptoCb_FindDevice g I = none) :
    wc_CryptoCb_RegisterDevice I B g d cb ctx = (B, g) := by
  simp [wc_CryptoCb_RegisterDevice, h, hI]

/-- Unregistration when the identifier is found. -/
theorem unregister_of_find_some {I : Int} {g : Table} {d : Int}
    {k : Fin MAX_CRYPTO_DEVID_CALLBACKS} (h : wc_CryptoCb_FindDevice g d = some k) :
    wc_CryptoCb_UnRegisterDevice I g d = Function.update g k ⟨I, NULL, NULL⟩ := by
  simp [wc_CryptoCb_UnRegisterDevice, h]

/-- Unregistration when the identifier is not found. -/
theorem unregister_of_find_none {I : Int} {g : Table} {d : Int}
    (h : wc_CryptoCb_FindDevice g d = none) :
    wc_CryptoCb_UnRegisterDevice I g d = g := by
  simp [wc_CryptoCb_UnRegisterDevice, h]

/-- The `devId` of a slot after one slot was overwritten. -/
theorem update_devId (g : Table) (k i : Fin MAX_CRYPTO_DEVID_CALLBACKS) (v : CryptoCb) :
    (Function.update g k v i).devId = if i = k then v.devId else (g i).devId := by
  by_cases h : i = k
  · subst h; simp
  · simp [Function.update_noteq h, h]

/-! ## Uniqueness of identifiers -/

/-- After `wc_CryptoCb_Init` no identifier other than the sentinel is in the table. -/
theorem atMostOne_init (I : Int) (g : Table) : AtMostOnePerId I (wc_CryptoCb_Init I g) := by
  intro d hd i j hi _
  exact absurd hi.symm hd

/-- Registration keeps identifiers unique. -/
theorem atMostOne_register (I B : Int) (g : Table) (d : Int) (cb : CryptoDevCallbackFunc)
    (ctx : Ptr) (hg : AtMostOnePerId I g) :
    AtMostOnePerId I (wc_CryptoCb_RegisterDevice I B g d cb ctx).2 := by
  cases h : wc_CryptoCb_FindDevice g d with
  | some k =>
    rw [register_of_find_some h]
    have hk := find_some_devId h
    intro e he i j hi hj
    have hi' : (g i).devId = e := by
      rw [update_devId] at hi
      by_cases hik : i = k
      · rw [if_pos hik] at hi; rw [hik, hk]; exact hi
      · rw [if_neg hik] at hi; exact hi
    have hj' : (g j).devId = e := by
      rw [update_devId] at hj
      by_cases hjk : j = k
      · rw [if_pos hjk] at hj; rw [hjk, hk]; exact hj
      · rw [if_neg hjk] at hj; exact hj
    exact hg e he i j hi' hj'
  | none =>
    have hnone := (find_none_iff g d).1 h
    cases hI : wc_CryptoCb_FindDevice g I with
    | some k =>
      rw [register_of_find_free h hI]
      intro e he i j hi hj
      rw [update_devId] at hi hj
      by_cases hik : i = k
      · rw [if_pos hik] at hi
        by_cases hjk : j = k
        · rw [hik, hjk]
        · rw [if_neg hjk] at hj
          exact absurd (hj.trans hi.symm) (hnone j)
      · rw [if_neg hik] at hi
        by_cases hjk : j = k
        · rw [if_pos hjk] at hj
          exact absurd (hi.trans hj.symm) (hnone i)
        · rw [if_neg hjk] at hj
          exact hg e he i j hi hj
    | none =>
      rw [register_of_find_none h hI]
      exact hg

/-- Unregistration keeps identifiers unique. -/
theorem atMostOne_unregister (I : Int) (g : Table) (d : Int) (hg : AtMostOnePerId I g) :
    AtMostOnePerId I (wc_CryptoCb_UnRegisterDevice I g d) := by
  cases h : wc_CryptoCb_FindDevice g d with
  | some k =>
    rw [unregister_of_find_some h]
    intro e he i j hi hj
    rw [update_devId] at hi hj
    by_cases hik : i = k
    · rw [if_pos hik] at hi; exact absurd hi.symm he
    · rw [if_neg hik] at hi
      by_cases hjk : j = k
      · rw [if_pos hjk] at hj; exact absurd hj.symm he
      · rw [if_neg hjk] at hj
        exact hg e he i j hi hj
  | none =>
    rw [unregister_of_find_none h]
    exact hg

/-- Every registry call keeps identifiers unique. -/
theorem atMostOne_apply (I B : Int) (g : Table) (op : RegistryCall) (hg : AtMostOnePerId I g) :
    AtMostOnePerId I (op.apply I B g) := by
  cases op with
  | init => exact atMostOne_init I g
  | register d cb ctx => exact atMostOne_register I B g d cb ctx hg
  | unregister d => exact atMostOne_unregister I g d hg

/-- Every sequence of registry calls keeps identifiers unique. -/
theorem atMostOne_runCalls (I B : Int) (ops : List RegistryCall) (g : Table)
    (hg : AtMostOnePerId I g) : AtMostOnePerId I (runCalls I B g ops) := by
  induction ops generalizing g with
  | nil => exact hg
  | cons op ops ih => exact ih _ (atMostOne_apply I B g op hg)

/-! ## The dispatchers, case by case -/

/-- A dispatcher whose lookup returns a slot with a callback: one invocation, with a
descriptor carrying the tags of the dispatcher and the arguments of the call, and the
value of the callback returned. -/
theorem dispatch_handled (NCI : Int) (run : CallbackEnv) (g : Table) (c : DispatchCall)
    (k : Fin MAX_CRYPTO_DEVID_CALLBACKS) (hfind : wc_CryptoCb_FindDevice g c.devId = some k)
    (hcb : (g k).cb ≠ NULL) :
    ∃ info : wc_CryptoInfo,
      info.tags = expectedTags c.dispatcher ∧ fieldsEqualArguments c info ∧
      dispatch NCI run g c =
        { ret := run (g k).cb c.devId info (g k).ctx,
          calls := [{ cb := (g k).cb, devId := c.devId, info := info, ctx := (g k).ctx }],
          table := g } := by
  cases c <;>
    simp only [DispatchCall.devId] at hfind <;>
    simp only [dispatch, wc_CryptoCb_Rsa, wc_CryptoCb_MakeRsaKey, wc_CryptoCb_MakeEccKey,
      wc_CryptoCb_Ecdh, wc_CryptoCb_EccSign, wc_CryptoCb_EccVerify, wc_CryptoCb_AesGcmEncrypt,
      wc_CryptoCb_AesGcmDecrypt, wc_CryptoCb_AesCbcEncrypt, wc_CryptoCb_AesCbcDecrypt,
      wc_CryptoCb_ShaHash, wc_CryptoCb_Sha256Hash, wc_CryptoCb_RandomBlock, hfind,
      DispatchCall.devId, if_pos hcb] <;>
    (refine ⟨_, ?_, ?_, rfl⟩ <;> first | rfl | simp [fieldsEqualArguments])

/-- A dispatcher whose lookup returns no slot with a callback. -/
theorem dispatch_not_handled (NCI : Int) (run : CallbackEnv) (g : Table) (c : DispatchCall)
    (h : ∀ k, wc_CryptoCb_FindDevice g c.devId = some k → (g k).cb = NULL) :
    dispatch NCI run g c = { ret := NCI, calls := [], table := g } := by
  cases hfind : wc_CryptoCb_FindDevice g c.devId with
  | none =>
    cases c <;>
      simp only [DispatchCall.devId] at hfind <;>
      simp only [dispatch, wc_CryptoCb_Rsa, wc_CryptoCb_MakeRsaKey, wc_CryptoCb_MakeEccKey,
        wc_CryptoCb_Ecdh, wc_CryptoCb_EccSign, wc_CryptoCb_EccVerify, wc_CryptoCb_AesGcmEncrypt,
        wc_CryptoCb_AesGcmDecrypt, wc_CryptoCb_AesCbcEncrypt, wc_CryptoCb_AesCbcDecrypt,
        wc_CryptoCb_ShaHash, wc_CryptoCb_Sha256Hash, wc_CryptoCb_RandomBlock, hfind]
  | some k =>
    have hcb : ¬ (g k).cb ≠ NULL := not_not.2 (h k hfind)
    cases c <;>
      simp only [DispatchCall.devId] at hfind <;>
      simp only [dispatch, wc_CryptoCb_Rsa, wc_CryptoCb_MakeRsaKey, wc_CryptoCb_MakeEccKey,
        wc_CryptoCb_Ecdh, wc_CryptoCb_EccSign, wc_CryptoCb_EccVerify, wc_CryptoCb_AesGcmEncrypt,
        wc_CryptoCb_AesGcmDecrypt, wc_CryptoCb_AesCbcEncrypt, wc_CryptoCb_AesCbcDecrypt,
        wc_CryptoCb_ShaHash, wc_CryptoCb_Sha256Hash, wc_CryptoCb_RandomBlock, hfind,
        if_neg hcb]

/-- Every invocation a dispatcher makes carries the tags of the dispatcher and the
arguments of the call. -/
theorem dispatch_calls_mem (NCI : Int) (run : CallbackEnv) (g : Table) (c : DispatchCall)
    (inv : Invocation) (h : inv ∈ (dispatch NCI run g c).calls) :
    inv.info.tags = expectedTags c.dispatcher ∧ fieldsEqualArguments c inv.info := by
  cases hfind : wc_CryptoCb_FindDevice g c.devId with
  | none =>
    rw [dispatch_not_handled NCI run g c (fun k hk => by rw [hfind] at hk; cases hk)] at h
    cases h
  | some k =>
    by_cases hcb : (g k).cb = NULL
    · rw [dispatch_not_handled NCI run g c (fun k2 hk => by
        rw [hfind] at hk; cases hk; exact hcb)] at h
      cases h
    · obtain ⟨info, h1, h2, h3⟩ := dispatch_handled NCI run g c k hfind hcb
      rw [h3] at h
      simp only [List.mem_singleton] at h
      subst h
      exact ⟨h1, h2⟩

/-! ## Registrations in effect -/

/-- One registry call keeps the link between a slot carrying `id` and a registration of
`id` being in effect. -/
theorem inEffect_apply (I B : Int) (id : Int) (hid : id ≠ I) (g : Table) (b : Bool)
    (op : RegistryCall) (hu : AtMostOnePerId I g) (h : SlotImpliesInEffect id g b) :
    SlotImpliesInEffect id (op.apply I B g) (inEffectStep id b op) := by
  cases op with
  | init =>
    rintro ⟨j, hj⟩
    exact absurd hj.symm hid
  | register d cb ctx =>
    by_cases hd : d = id
    · intro _
      simp [inEffectStep, hd]
    · have hb : inEffectStep id b (.register d cb ctx) = b := by simp [inEffectStep, hd]
      rw [hb]
      rintro ⟨j, hj⟩
      apply h
      simp only [RegistryCall.apply] at hj
      cases hf : wc_CryptoCb_FindDevice g d with
      | some k =>
        rw [register_of_find_some hf, update_devId] at hj
        by_cases hjk : j = k
        · rw [if_pos hjk] at hj; exact absurd hj hd
        · rw [if_neg hjk] at hj; exact ⟨j, hj⟩
      | none =>
        cases hI : wc_CryptoCb_FindDevice g I with
        | some k =>
          rw [register_of_find_free hf hI, update_devId] at hj
          by_cases hjk : j = k
          · rw [if_pos hjk] at hj; exact absurd hj hd
          · rw [if_neg hjk] at hj; exact ⟨j, hj⟩
        | none =>
          rw [register_of_find_none hf hI] at hj
          exact ⟨j, hj⟩
  | unregister d =>
    simp only [RegistryCall.apply]
    cases hf : wc_CryptoCb_FindDevice g d with
    | none =>
      rw [unregister_of_find_none hf]
      by_cases hd : d = id
      · rintro ⟨j, hj⟩
        exact absurd hj (by rw [← hd]; exact (find_none_iff g d).1 hf j)
      · have hb : inEffectStep id b (.unregister d) = b := by simp [inEffectStep, hd]
        rw [hb]; exact h
    | some k =>
      rw [unregister_of_find_some hf]
      have hk := find_some_devId hf
      by_cases hd : d = id
      · rintro ⟨j, hj⟩
        rw [update_devId] at hj
        by_cases hjk : j = k
        · rw [if_pos hjk] at hj; exact absurd hj.symm hid
        · rw [if_neg hjk] at hj
          exact absurd (hu id hid j k hj (hk.trans hd)) hjk
      · have hb : inEffectStep id b (.unregister d) = b := by simp [inEffectStep, hd]
        rw [hb]
        rintro ⟨j, hj⟩
        apply h
        rw [update_devId] at hj
        by_cases hjk : j = k
        · rw [if_pos hjk] at hj; exact absurd hj.symm hid
        · rw [if_neg hjk] at hj; exact ⟨j, hj⟩

/-- A sequence of registry calls keeps the link between a slot carrying `id` and a
registration of `id` being in effect. -/
theorem inEffect_runCalls (I B : Int) (id : Int) (hid : id ≠ I) (ops : List RegistryCall)
    (g : Table) (b : Bool) (hu : AtMostOnePerId I g) (h : SlotImpliesInEffect id g b) :
    SlotImpliesInEffect id (runCalls I B g ops) (ops.foldl (inEffectStep id) b) := by
  induction ops generalizing g b with
  | nil => exact h
  | cons op ops ih =>
    exact ih _ _ (atMostOne_apply I B g op hu) (inEffect_apply I B id hid g b op hu h)

/-! ## Sequences of registrations -/

/-- The most recent registration after one more request. -/
theorem lastRegistration_append (id : Int) (ps : List Registration) (r : Registration) :
    lastRegistration id (ps ++ [r]) = if r.devId = id then some r else lastRegistration id ps := by
  unfold lastRegistration
  rw [List.reverse_append, List.reverse_singleton, List.singleton_append, List.find?_cons]
  by_cases h : r.devId = id
  · simp [h]
  · simp [h]

/-- The most recent registration of `id` is one of the requests and is about `id`. -/
theorem lastRegistration_some {id : Int} {ps : List Registration} {r : Registration}
    (h : lastRegistration id ps = some r) : r ∈ ps ∧ r.devId = id := by
  unfold lastRegistration at h
  refine ⟨List.mem_reverse.1 (List.mem_of_find?_eq_some h), ?_⟩
  simpa using List.find?_some h

/-- An identifier among the requests has a most recent registration. -/
theorem lastRegistration_of_mem {id : Int} {ps : List Registration}
    (h : id ∈ ps.map Registration.devId) : ∃ r, lastRegistration id ps = some r := by
  obtain ⟨r, hr, hid⟩ := List.mem_map.1 h
  unfold lastRegistration
  cases hf : ps.reverse.find? (fun r => r.devId = id) with
  | some r2 => exact ⟨r2, rfl⟩
  | none =>
    have := List.find?_eq_none.1 hf r (List.mem_reverse.2 hr)
    simp [hid] at this

/-- The invariant of registration sequences holds after `wc_CryptoCb_Init`. -/
theorem registeredInv_init (I : Int) (g0 : Table) : RegisteredInv I (wc_CryptoCb_Init I g0) [] := by
  refine ⟨fun i => Or.inl rfl, fun i j _ h => absurd rfl h, fun id r h => ?_⟩
  simp [lastRegistration] at h

/-- Writing a request into the slot of its identifier, or into a sentinel slot when
the identifier is absent, keeps the invariant of registration sequences. -/
theorem registeredInv_update (I : Int) (t : Table) (ps : List Registration) (r : Registration)
    (k : Fin MAX_CRYPTO_DEVID_CALLBACKS) (hinv : RegisteredInv I t ps) (hps : ∀ p ∈ ps, p.devId ≠ I)
    (hr : r.devId ≠ I)
    (hk : (t k).devId = r.devId ∨ ((t k).devId = I ∧ ∀ j, (t j).devId ≠ r.devId)) :
    RegisteredInv I (Function.update t k ⟨r.devId, r.cb, r.ctx⟩) (ps ++ [r]) := by
  obtain ⟨h1, h2, h3⟩ := hinv
  refine ⟨fun i => ?_, fun i j hij hi => ?_, fun id p hp => ?_⟩
  · rw [update_devId]
    by_cases hik : i = k
    · rw [if_pos hik]; right; simp
    · rw [if_neg hik]
      rcases h1 i with h | h
      · exact Or.inl h
      · right
        rw [List.map_append]
        exact List.mem_append_left _ h
  · rw [update_devId] at hij hi
    rw [update_devId] at hij
    by_cases hik : i = k
    · by_cases hjk : j = k
      · rw [hik, hjk]
      · rw [if_pos hik, if_neg hjk] at hij
        rcases hk with hk | ⟨hkI, hnone⟩
        · exact absurd (h2 k j (hk.trans hij) (by rw [hk]; exact hr)).symm hjk
        · exact absurd hij.symm (hnone j)
    · rw [if_neg hik] at hij hi
      by_cases hjk : j = k
      · rw [if_pos hjk] at hij
        rcases hk with hk | ⟨hkI, hnone⟩
        · have := h2 i k (hij.trans hk.symm) hi
          exact absurd this hik
        · exact absurd hij (hnone i)
      · rw [if_neg hjk] at hij
        exact h2 i j hij hi
  · rw [lastRegistration_append] at hp
    by_cases hid : r.devId = id
    · rw [if_pos hid] at hp
      cases hp
      exact ⟨k, by rw [Function.update_same, hid]⟩
    · rw [if_neg hid] at hp
      obtain ⟨k2, hk2⟩ := h3 id p hp
      have hidI : id ≠ I := by
        obtain ⟨hmem, hpid⟩ := lastRegistration_some hp
        rw [← hpid]; exact hps p hmem
      have hne : k2 ≠ k := by
        intro he
        have hd : (t k).devId = id := by rw [← he, hk2]
        rcases hk with hk | ⟨hkI, _⟩
        · exact hid (hk.symm.trans hd)
        · exact hidI (hd.symm.trans hkI)
      exact ⟨k2, by rw [Function.update_noteq hne]; exact hk2⟩

/-- The table has `MAX_CRYPTO_DEVID_CALLBACKS` slots. -/
theorem card_slots : (Finset.univ : Finset (Fin MAX_CRYPTO_DEVID_CALLBACKS)).card
    = MAX_CRYPTO_DEVID_CALLBACKS := by
  rw [Finset.card_univ, Fintype.card_fin]

/-- One registration within capacity succeeds and keeps the invariant. -/
theorem register_step (I B : Int) (t : Table) (ps : List Registration) (r : Registration)
    (hinv : RegisteredInv I t ps) (hps : ∀ p ∈ ps, p.devId ≠ I) (hr : r.devId ≠ I)
    (hcap : ((ps ++ [r]).map Registration.devId).toFinset.card ≤ MAX_CRYPTO_DEVID_CALLBACKS) :
    (wc_CryptoCb_RegisterDevice I B t r.devId r.cb r.ctx).1 = 0 ∧
      RegisteredInv I (wc_CryptoCb_RegisterDevice I B t r.devId r.cb r.ctx).2 (ps ++ [r]) := by
  cases hf : wc_CryptoCb_FindDevice t r.devId with
  | some k =>
    rw [register_of_find_some hf]
    exact ⟨rfl, registeredInv_update I t ps r k hinv hps hr (Or.inl (find_some_devId hf))⟩
  | none =>
    have hnone := (find_none_iff t r.devId).1 hf
    cases hI : wc_CryptoCb_FindDevice t I with
    | some k =>
      rw [register_of_find_free hf hI]
      exact ⟨rfl, registeredInv_update I t ps r k hinv hps hr
        (Or.inr ⟨find_some_devId hI, hnone⟩)⟩
    | none =>
      exfalso
      have hfull := (find_none_iff t I).1 hI
      obtain ⟨h1, h2, -⟩ := hinv
      have hinj : Function.Injective (fun k => (t k).devId) :=
        fun i j hij => h2 i j hij (hfull i)
      have hcard : (Finset.univ.image (fun k => (t k).devId)).card
          = MAX_CRYPTO_DEVID_CALLBACKS := by
        rw [Finset.card_image_of_injective _ hinj, card_slots]
      have hnot : r.devId ∉ Finset.univ.image (fun k => (t k).devId) := by
        intro hm
        obtain ⟨j, -, hj⟩ := Finset.mem_image.1 hm
        exact hnone j hj
      have hsub : insert r.devId (Finset.univ.image (fun k => (t k).devId))
          ⊆ ((ps ++ [r]).map Registration.devId).toFinset := by
        intro x hx
        rw [List.mem_toFinset, List.map_append, List.mem_append]
        rcases Finset.mem_insert.1 hx with hx | hx
        · right; simp [hx]
        · left
          obtain ⟨j, -, hj⟩ := Finset.mem_image.1 hx
          rcases h1 j with h | h
          · exact absurd h (hfull j)
          · rw [← hj]; exact h
      have h9 := Finset.card_le_card hsub
      rw [Finset.card_insert_of_not_mem hnot, hcard] at h9
      omega

/-- A sequence of registrations within capacity succeeds throughout and keeps the
invariant. -/
theorem registerAll_inv (I B : Int) (rs : List Registration) :
    ∀ (ps : List Registration) (t : Table), RegisteredInv I t ps →
      (∀ p ∈ ps ++ rs, p.devId ≠ I) →
      ((ps ++ rs).map Registration.devId).toFinset.card ≤ MAX_CRYPTO_DEVID_CALLBACKS →
      (registerAll I B t rs).1 = List.replicate rs.length 0 ∧
        RegisteredInv I (registerAll I B t rs).2 (ps ++ rs) := by
  induction rs with
  | nil =>
    intro ps t hinv _ _
    rw [List.append_nil]
    exact ⟨rfl, hinv⟩
  | cons r rs ih =>
    intro ps t hinv hne hcap
    have hsplit : ps ++ r :: rs = (ps ++ [r]) ++ rs := by simp
    have hps : ∀ p ∈ ps, p.devId ≠ I := fun p hp => hne p (List.mem_append_left _ hp)
    have hr : r.devId ≠ I := hne r (by simp)
    have hcap1 : ((ps ++ [r]).map Registration.devId).toFinset.card
        ≤ MAX_CRYPTO_DEVID_CALLBACKS := by
      refine le_trans (Finset.card_le_card ?_) hcap
      intro x hx
      rw [List.mem_toFinset] at hx ⊢
      rw [hsplit, List.map_append]
      exact List.mem_append_left _ hx
    obtain ⟨h0, hinv1⟩ := register_step I B t ps r hinv hps hr hcap1
    rw [hsplit] at hne hcap
    obtain ⟨hrest, hinv2⟩ := ih (ps ++ [r]) _ hinv1 hne hcap
    rw [hsplit]
    refine ⟨?_, hinv2⟩
    show (wc_CryptoCb_RegisterDevice I B t r.devId r.cb r.ctx).1 ::
      (registerAll I B (wc_CryptoCb_RegisterDevice I B t r.devId r.cb r.ctx).2 rs).1 = _
    rw [h0, hrest]
    rfl

/-- Once as many distinct identifiers are registered as there are slots, a further
identifier is refused and the table stays as it is. -/
theorem registeredInv_full (I B : Int) (t : Table) (rs : List Registration)
    (hinv : RegisteredInv I t rs) (hne : ∀ p ∈ rs, p.devId ≠ I)
    (hcard : (rs.map Registration.devId).toFinset.card = MAX_CRYPTO_DEVID_CALLBACKS)
    (d : Int) (cb : CryptoDevCallbackFunc) (ctx : Ptr)
    (hd : d ∉ rs.map Registration.devId) :
    wc_CryptoCb_RegisterDevice I B t d cb ctx = (B, t) := by
  obtain ⟨-, -, h3⟩ := hinv
  have hsub : (rs.map Registration.devId).toFinset ⊆ Finset.univ.image (fun k => (t k).devId) := by
    intro x hx
    rw [List.mem_toFinset] at hx
    obtain ⟨r, hr⟩ := lastRegistration_of_mem hx
    obtain ⟨k, hk⟩ := h3 x r hr
    exact Finset.mem_image.2 ⟨k, Finset.mem_univ _, by rw [hk]⟩
  have hle : (Finset.univ.image (fun k => (t k).devId)).card
      ≤ (rs.map Registration.devId).toFinset.card := by
    rw [hcard]
    exact le_trans Finset.card_image_le (le_of_eq card_slots)
  have heq := Finset.eq_of_subset_of_card_le hsub hle
  have hall : ∀ k, (t k).devId ∈ rs.map Registration.devId := by
    intro k
    rw [← List.mem_toFinset, heq]
    exact Finset.mem_image.2 ⟨k, Finset.mem_univ _, rfl⟩
  apply register_of_find_none
  · rw [find_none_iff]
    intro j hj
    exact hd (hj ▸ hall j)
  · rw [find_none_iff]
    intro j hj
    obtain ⟨p, hp, hpd⟩ := List.mem_map.1 (hall j)
    exact hne p hp (hpd.trans hj)

/-! ## The claims -/

/-- Claim C1: `wc_CryptoCb_RegisterDevice(devId, cb, ctx)` returns `BUFFER_E` if and only
if no slot has `devId` equal to the argument and no slot has `devId` equal to
`INVALID_DEVID`; in that case the table is left as it was; in every other case the call
returns 0.  `BUFFER_E` is an error code, so it is not 0. -/
theorem registerDevice_buffer_e_iff (INVALID_DEVID BUFFER_E : Int) (hB : BUFFER_E ≠ 0)
    (g : Table) (devId : Int) (cb : CryptoDevCallbackFunc) (ctx : Ptr) :
    ((wc_CryptoCb_RegisterDevice INVALID_DEVID BUFFER_E g devId cb ctx).1 = BUFFER_E ↔
        (∀ j, (g j).devId ≠ devId) ∧ (∀ j, (g j).devId ≠ INVALID_DEVID)) ∧
      ((wc_CryptoCb_RegisterDevice INVALID_DEVID BUFFER_E g devId cb ctx).1 = BUFFER_E →
        (wc_CryptoCb_RegisterDevice INVALID_DEVID BUFFER_E g devId cb ctx).2 = g) ∧
      ((wc_CryptoCb_RegisterDevice INVALID_DEVID BUFFER_E g devId cb ctx).1 ≠ BUFFER_E →
        (wc_CryptoCb_RegisterDevice INVALID_DEVID BUFFER_E g devId cb ctx).1 = 0) := by
  cases h : wc_CryptoCb_FindDevice g devId with
  | some k =>
    rw [register_of_find_some h]
    have hk := find_some_devId h
    refine ⟨⟨fun h0 => absurd h0.symm hB, fun hh => absurd hk (hh.1 k)⟩,
      fun h0 => absurd h0.symm hB, fun _ => rfl⟩
  | none =>
    cases hI : wc_CryptoCb_FindDevice g INVALID_DEVID with
    | some k =>
      rw [register_of_find_free h hI]
      have hk := find_some_devId hI
      refine ⟨⟨fun h0 => absurd h0.symm hB, fun hh => absurd hk (hh.2 k)⟩,
        fun h0 => absurd h0.symm hB, fun _ => rfl⟩
    | none =>
      rw [register_of_find_none h hI]
      exact ⟨⟨fun _ => ⟨(find_none_iff g devId).1 h, (find_none_iff g INVALID_DEVID).1 hI⟩,
        fun _ => rfl⟩, fun _ => rfl, fun hne => absurd rfl hne⟩

/-- Claim C1 at a concrete input: registering identifier 9 in the full table. -/
theorem registerDevice_buffer_e_iff_witness :
    (-132 : Int) ≠ 0 ∧
      (((wc_CryptoCb_RegisterDevice (-2) (-132) fullTable 9 1 2).1 = -132 ↔
          (∀ j, (fullTable j).devId ≠ 9) ∧ (∀ j, (fullTable j).devId ≠ -2)) ∧
        ((wc_CryptoCb_RegisterDevice (-2) (-132) fullTable 9 1 2).1 = -132 →
          (wc_CryptoCb_RegisterDevice (-2) (-132) fullTable 9 1 2).2 = fullTable) ∧
        ((wc_CryptoCb_RegisterDevice (-2) (-132) fullTable 9 1 2).1 ≠ -132 →
          (wc_CryptoCb_RegisterDevice (-2) (-132) fullTable 9 1 2).1 = 0)) :=
  ⟨by decide, registerDevice_buffer_e_iff (-2) (-132) (by decide) fullTable 9 1 2⟩

/-- Claim C2: from the table `wc_CryptoCb_Init()` leaves, a sequence of registrations
whose identifiers all differ from `INVALID_DEVID` and take at most
`MAX_CRYPTO_DEVID_CALLBACKS` distinct values returns 0 at every call; afterwards the
lookup of each identifier of the sequence returns a slot holding the callback and the
context of the most recent registration of that identifier; and when the sequence has
used all eight distinct values, registering one more identifier, different from the
sentinel and from those of the sequence, returns `BUFFER_E` and leaves the table as it
was. -/
theorem register_up_to_capacity (INVALID_DEVID BUFFER_E : Int) (g0 : Table)
    (rs : List Registration) (hne : ∀ r ∈ rs, r.devId ≠ INVALID_DEVID)
    (hcap : (rs.map Registration.devId).toFinset.card ≤ MAX_CRYPTO_DEVID_CALLBACKS) :
    (registerAll INVALID_DEVID BUFFER_E (wc_CryptoCb_Init INVALID_DEVID g0) rs).1
        = List.replicate rs.length 0 ∧
      (∀ r ∈ rs, ∃ (last : Registration) (k : Fin MAX_CRYPTO_DEVID_CALLBACKS),
        lastRegistration r.devId rs = some last ∧
        wc_CryptoCb_FindDevice
          (registerAll INVALID_DEVID BUFFER_E (wc_CryptoCb_Init INVALID_DEVID g0) rs).2 r.devId
          = some k ∧
        (registerAll INVALID_DEVID BUFFER_E (wc_CryptoCb_Init INVALID_DEVID g0) rs).2 k
          = ⟨r.devId, last.cb, last.ctx⟩) ∧
      ((rs.map Registration.devId).toFinset.card = MAX_CRYPTO_DEVID_CALLBACKS →
        ∀ (d : Int) (cb : CryptoDevCallbackFunc) (ctx : Ptr), d ≠ INVALID_DEVID →
          d ∉ rs.map Registration.devId →
          wc_CryptoCb_RegisterDevice INVALID_DEVID BUFFER_E
            (registerAll INVALID_DEVID BUFFER_E (wc_CryptoCb_Init INVALID_DEVID g0) rs).2 d cb ctx
            = (BUFFER_E,
              (registerAll INVALID_DEVID BUFFER_E (wc_CryptoCb_Init INVALID_DEVID g0) rs).2)) := by
  obtain ⟨hret, hinv⟩ := registerAll_inv INVALID_DEVID BUFFER_E rs []
    (wc_CryptoCb_Init INVALID_DEVID g0) (registeredInv_init INVALID_DEVID g0)
    (by simpa using hne) (by simpa using hcap)
  rw [List.nil_append] at hinv
  refine ⟨hret, fun r hr => ?_, fun hfull d cb ctx _ hd =>
    registeredInv_full INVALID_DEVID BUFFER_E _ rs hinv hne hfull d cb ctx hd⟩
  obtain ⟨last, hlast⟩ := lastRegistration_of_mem (List.mem_map_of_mem Registration.devId hr)
  obtain ⟨k0, hk0⟩ := hinv.2.2 r.devId last hlast
  have hdev : ((registerAll INVALID_DEVID BUFFER_E (wc_CryptoCb_Init INVALID_DEVID g0) rs).2
      k0).devId = r.devId := by rw [hk0]
  obtain ⟨k, hk⟩ := find_isSome_of_slot k0 hdev
  have hkk : k = k0 := hinv.2.1 k k0 ((find_some_devId hk).trans hdev.symm)
    (by rw [find_some_devId hk]; exact hne r hr)
  exact ⟨last, k, hlast, hk, by rw [hkk]; exact hk0⟩

/-- Claim C2 at a concrete input: identifiers 1 to 8 are registered, identifier 1 a
second time, and identifier 9 is then refused. -/
theorem register_up_to_capacity_witness :
    (∀ r ∈ eightThenAgain, r.devId ≠ -2) ∧
      (eightThenAgain.map Registration.devId).toFinset.card ≤ MAX_CRYPTO_DEVID_CALLBACKS ∧
      (registerAll (-2) (-132) (wc_CryptoCb_Init (-2) zeroTable) eightThenAgain).1
        = List.replicate eightThenAgain.length 0 ∧
      (∀ r ∈ eightThenAgain, ∃ (last : Registration) (k : Fin MAX_CRYPTO_DEVID_CALLBACKS),
        lastRegistration r.devId eightThenAgain = some last ∧
        wc_CryptoCb_FindDevice
          (registerAll (-2) (-132) (wc_CryptoCb_Init (-2) zeroTable) eightThenAgain).2 r.devId
          = some k ∧
        (registerAll (-2) (-132) (wc_CryptoCb_Init (-2) zeroTable) eightThenAgain).2 k
          = ⟨r.devId, last.cb, last.ctx⟩) ∧
      wc_CryptoCb_RegisterDevice (-2) (-132)
        (registerAll (-2) (-132) (wc_CryptoCb_Init (-2) zeroTable) eightThenAgain).2 9 1 2
        = (-132, (registerAll (-2) (-132) (wc_CryptoCb_Init (-2) zeroTable) eightThenAgain).2) :=
  have h := register_up_to_capacity (-2) (-132) zeroTable eightThenAgain (by decide) (by decide)
  ⟨by decide, by decide, h.1, h.2.1, h.2.2 (by decide) 9 1 2 (by decide) (by decide)⟩

/-- Claim C3: in every table reached from `wc_CryptoCb_Init()` by register, unregister
and init calls with arbitrary arguments, at most one slot has `devId` equal to `d`, for
every identifier `d` different from `INVALID_DEVID`. -/
theorem reachable_at_most_one_slot_per_id (INVALID_DEVID BUFFER_E : Int) (g0 : Table)
    (ops : List RegistryCall) (d : Int) (hd : d ≠ INVALID_DEVID) :
    (Finset.univ.filter (fun i =>
      (runCalls INVALID_DEVID BUFFER_E (wc_CryptoCb_Init INVALID_DEVID g0) ops i).devId = d)).card
      ≤ 1 := by
  rw [Finset.card_le_one]
  intro i hi j hj
  rw [Finset.mem_filter] at hi hj
  exact atMostOne_runCalls INVALID_DEVID BUFFER_E ops _ (atMostOne_init INVALID_DEVID g0)
    d hd i j hi.2 hj.2

/-- Claim C3 at a concrete input: identifier 5 after it was registered three times. -/
theorem reachable_at_most_one_slot_per_id_witness :
    (5 : Int) ≠ -2 ∧
      (Finset.univ.filter (fun i =>
        (runCalls (-2) (-132) (wc_CryptoCb_Init (-2) zeroTable)
          [.register 5 7 9, .register 5 8 10, .register 6 1 1, .unregister 6, .init,
           .register 5 1 2] i).devId = 5)).card ≤ 1 :=
  ⟨by decide, reachable_at_most_one_slot_per_id (-2) (-132) zeroTable
    [.register 5 7 9, .register 5 8 10, .register 6 1 1, .unregister 6, .init, .register 5 1 2]
    5 (by decide)⟩

/-- Claim C4: for every dispatcher, table and argument tuple, when the lookup of the
`devId` carried by the state object returns a slot with a callback that is not null, the
dispatcher invokes that callback exactly once, with that `devId` as first argument and
the context of the slot as third argument, and returns the value the callback returns,
whatever that value is. -/
theorem dispatch_invokes_callback_once (NOT_COMPILED_IN : Int) (run : CallbackEnv) (g : Table)
    (c : DispatchCall) (k : Fin MAX_CRYPTO_DEVID_CALLBACKS)
    (hfind : wc_CryptoCb_FindDevice g c.devId = some k) (hcb : (g k).cb ≠ NULL) :
    ∃ info : wc_CryptoInfo,
      (dispatch NOT_COMPILED_IN run g c).calls =
          [{ cb := (g k).cb, devId := c.devId, info := info, ctx := (g k).ctx }] ∧
        (dispatch NOT_COMPILED_IN run g c).ret = run (g k).cb c.devId info (g k).ctx := by
  obtain ⟨info, -, -, h⟩ := dispatch_handled NOT_COMPILED_IN run g c k hfind hcb
  exact ⟨info, by rw [h], by rw [h]⟩

/-- Claim C4 at a concrete input: an RSA call on a key whose `devId` is 3, in the full
table, where slot 2 carries identifier 3. -/
theorem dispatch_invokes_callback_once_witness :
    wc_CryptoCb_FindDevice fullTable rsaCallOnThree.devId = some 2 ∧
      (fullTable 2).cb ≠ NULL ∧
      ∃ info : wc_CryptoInfo,
        (dispatch (-174) sumRun fullTable rsaCallOnThree).calls =
            [{ cb := (fullTable 2).cb, devId := rsaCallOnThree.devId, info := info,
               ctx := (fullTable 2).ctx }] ∧
          (dispatch (-174) sumRun fullTable rsaCallOnThree).ret
            = sumRun (fullTable 2).cb rsaCallOnThree.devId info (fullTable 2).ctx :=
  ⟨by decide, by decide,
    dispatch_invokes_callback_once (-174) sumRun fullTable rsaCallOnThree 2 (by decide)
      (by decide)⟩

/-- Claim C5, amended: in every table reached from `wc_CryptoCb_Init()` by register,
unregister and init calls, a dispatcher called on an object whose `devId` is different
from `INVALID_DEVID` and has no registration in effect returns `NOT_COMPILED_IN`,
invokes no callback and leaves the table as it was. -/
theorem dispatch_without_registration_not_handled (INVALID_DEVID BUFFER_E NOT_COMPILED_IN : Int)
    (run : CallbackEnv) (g0 : Table) (ops : List RegistryCall) (c : DispatchCall)
    (hid : c.devId ≠ INVALID_DEVID) (hreg : registrationInEffect c.devId ops = false) :
    (dispatch NOT_COMPILED_IN run
        (runCalls INVALID_DEVID BUFFER_E (wc_CryptoCb_Init INVALID_DEVID g0) ops) c).ret
        = NOT_COMPILED_IN ∧
      (dispatch NOT_COMPILED_IN run
        (runCalls INVALID_DEVID BUFFER_E (wc_CryptoCb_Init INVALID_DEVID g0) ops) c).calls = [] ∧
      (dispatch NOT_COMPILED_IN run
        (runCalls INVALID_DEVID BUFFER_E (wc_CryptoCb_Init INVALID_DEVID g0) ops) c).table
        = runCalls INVALID_DEVID BUFFER_E (wc_CryptoCb_Init INVALID_DEVID g0) ops := by
  have hinv := inEffect_runCalls INVALID_DEVID BUFFER_E c.devId hid ops
    (wc_CryptoCb_Init INVALID_DEVID g0) false (atMostOne_init INVALID_DEVID g0)
    (fun ⟨j, hj⟩ => absurd hj.symm hid)
  have hno : ∀ k, wc_CryptoCb_FindDevice
      (runCalls INVALID_DEVID BUFFER_E (wc_CryptoCb_Init INVALID_DEVID g0) ops) c.devId = some k →
      ((runCalls INVALID_DEVID BUFFER_E (wc_CryptoCb_Init INVALID_DEVID g0) ops) k).cb = NULL := by
    intro k hk
    have hb := hinv ⟨k, find_some_devId hk⟩
    unfold registrationInEffect at hreg
    rw [hreg] at hb
    cases hb
  rw [dispatch_not_handled NOT_COMPILED_IN run _ c hno]
  exact ⟨rfl, rfl, rfl⟩

/-- Claim C5, amended, at a concrete input: identifier 5 was registered and then
unregistered; a random-block call on a generator whose `devId` is 5 follows. -/
theorem dispatch_without_registration_not_handled_witness :
    (DispatchCall.RandomBlock ⟨0, 5⟩ 0 0).devId ≠ -2 ∧
      registrationInEffect (DispatchCall.RandomBlock ⟨0, 5⟩ 0 0).devId
        [.register 5 7 9, .unregister 5, .register 6 1 1] = false ∧
      (dispatch (-174) sumRun
          (runCalls (-2) (-132) (wc_CryptoCb_Init (-2) zeroTable)
            [.register 5 7 9, .unregister 5, .register 6 1 1])
          (.RandomBlock ⟨0, 5⟩ 0 0)).ret = -174 ∧
      (dispatch (-174) sumRun
          (runCalls (-2) (-132) (wc_CryptoCb_Init (-2) zeroTable)
            [.register 5 7 9, .unregister 5, .register 6 1 1])
          (.RandomBlock ⟨0, 5⟩ 0 0)).calls = [] ∧
      (dispatch (-174) sumRun
          (runCalls (-2) (-132) (wc_CryptoCb_Init (-2) zeroTable)
            [.register 5 7 9, .unregister 5, .register 6 1 1])
          (.RandomBlock ⟨0, 5⟩ 0 0)).table
        = runCalls (-2) (-132) (wc_CryptoCb_Init (-2) zeroTable)
            [.register 5 7 9, .unregister 5, .register 6 1 1] :=
  ⟨by decide, by decide,
    dispatch_without_registration_not_handled (-2) (-132) (-174) sumRun zeroTable
      [.register 5 7 9, .unregister 5, .register 6 1 1] (.RandomBlock ⟨0, 5⟩ 0 0)
      (by decide) (by decide)⟩

/-- Claim C5 fails for the identifier `INVALID_DEVID`: after `wc_CryptoCb_Init()`,
`wc_CryptoCb_RegisterDevice(5, 7, 9)` and `wc_CryptoCb_Init()` again, no registration of
`INVALID_DEVID` (here -2) is in effect, yet `wc_CryptoCb_Rsa` on a key whose `devId` is
`INVALID_DEVID` finds slot 0, whose callback 7 and context 9 the second init left in
place, invokes that callback once and returns its value 0, not `NOT_COMPILED_IN`
(here -174). -/
theorem dispatch_on_sentinel_after_reinit_invokes_callback :
    registrationInEffect (-2) [.register 5 7 9, .init] = false ∧
      (dispatch (-174) (fun _ _ _ _ => 0)
        (runCalls (-2) (-132) (wc_CryptoCb_Init (-2) zeroTable) [.register 5 7 9, .init])
        (.Rsa 0 0 0 0 0 ⟨1, -2⟩ ⟨0, -2⟩)).ret = 0 ∧
      ((dispatch (-174) (fun _ _ _ _ => 0)
        (runCalls (-2) (-132) (wc_CryptoCb_Init (-2) zeroTable) [.register 5 7 9, .init])
        (.Rsa 0 0 0 0 0 ⟨1, -2⟩ ⟨0, -2⟩)).calls.map (fun inv => (inv.cb, inv.devId, inv.ctx)))
        = [(7, -2, 9)] := by
  decide

/-- Claim C6: in every table reached from `wc_CryptoCb_Init()` by register, unregister
and init calls, and for every identifier, right after `wc_CryptoCb_UnRegisterDevice` of
that identifier each dispatcher called on an object carrying it returns
`NOT_COMPILED_IN` and invokes no callback.  The identifier is the one the object of the
call carries, `c.devId`, which ranges over all identifiers. -/
theorem dispatch_after_unregister_not_handled (INVALID_DEVID BUFFER_E NOT_COMPILED_IN : Int)
    (run : CallbackEnv) (g0 : Table) (ops : List RegistryCall) (c : DispatchCall) :
    (dispatch NOT_COMPILED_IN run
        (wc_CryptoCb_UnRegisterDevice INVALID_DEVID
          (runCalls INVALID_DEVID BUFFER_E (wc_CryptoCb_Init INVALID_DEVID g0) ops) c.devId)
        c).ret = NOT_COMPILED_IN ∧
      (dispatch NOT_COMPILED_IN run
        (wc_CryptoCb_UnRegisterDevice INVALID_DEVID
          (runCalls INVALID_DEVID BUFFER_E (wc_CryptoCb_Init INVALID_DEVID g0) ops) c.devId)
        c).calls = [] := by
  have hu := atMostOne_runCalls INVALID_DEVID BUFFER_E ops _ (atMostOne_init INVALID_DEVID g0)
  generalize runCalls INVALID_DEVID BUFFER_E (wc_CryptoCb_Init INVALID_DEVID g0) ops = g at hu
  have hno : ∀ k, wc_CryptoCb_FindDevice (wc_CryptoCb_UnRegisterDevice INVALID_DEVID g c.devId)
      c.devId = some k →
      ((wc_CryptoCb_UnRegisterDevice INVALID_DEVID g c.devId) k).cb = NULL := by
    intro k hk
    cases hf : wc_CryptoCb_FindDevice g c.devId with
    | none =>
      rw [unregister_of_find_none hf, hf] at hk
      cases hk
    | some k0 =>
      rw [unregister_of_find_some hf] at hk ⊢
      have hk0 := find_some_devId hf
      have hkd := find_some_devId hk
      by_cases hkk : k = k0
      · rw [hkk, Function.update_same]
      · rw [update_devId, if_neg hkk] at hkd
        by_cases hid : c.devId = INVALID_DEVID
        · -- the cleared slot still comes first among the sentinel slots
          exfalso
          have hmin := ((find_some_iff _ _ _).1 hk).2
          have hmin0 := ((find_some_iff _ _ _).1 hf).2
          rcases lt_trichotomy k k0 with hlt | heq | hgt
          · exact hmin0 k hlt hkd
          · exact hkk heq
          · apply hmin k0 hgt
            rw [Function.update_same]
            exact hid.symm
        · exact absurd (hu c.devId hid k k0 hkd hk0) hkk
  rw [dispatch_not_handled NOT_COMPILED_IN run _ c hno]
  exact ⟨rfl, rfl⟩

/-- Claim C7: when some slot already has `devId` equal to `id`, with `id` different
from `INVALID_DEVID`, `wc_CryptoCb_RegisterDevice(id, cb2, ctx2)` returns 0, writes
`cb2` and `ctx2` into the first slot whose `devId` is `id`, leaves every other slot and
the number of slots with a non-sentinel `devId` unchanged, and the lookup of `id`
afterwards returns that slot; the table may be full. -/
theorem reregister_overwrites_in_place (INVALID_DEVID BUFFER_E : Int) (g : Table) (id : Int)
    (cb2 : CryptoDevCallbackFunc) (ctx2 : Ptr) (_hid : id ≠ INVALID_DEVID)
    (hex : ∃ j, (g j).devId = id) :
    ∃ k : Fin MAX_CRYPTO_DEVID_CALLBACKS,
      ((g k).devId = id ∧ ∀ j, j < k → (g j).devId ≠ id) ∧
      (wc_CryptoCb_RegisterDevice INVALID_DEVID BUFFER_E g id cb2 ctx2).1 = 0 ∧
      (wc_CryptoCb_RegisterDevice INVALID_DEVID BUFFER_E g id cb2 ctx2).2 k = ⟨id, cb2, ctx2⟩ ∧
      (∀ j, j ≠ k →
        (wc_CryptoCb_RegisterDevice INVALID_DEVID BUFFER_E g id cb2 ctx2).2 j = g j) ∧
      occupancy INVALID_DEVID (wc_CryptoCb_RegisterDevice INVALID_DEVID BUFFER_E g id cb2 ctx2).2
        = occupancy INVALID_DEVID g ∧
      wc_CryptoCb_FindDevice (wc_CryptoCb_RegisterDevice INVALID_DEVID BUFFER_E g id cb2 ctx2).2 id
        = some k := by
  obtain ⟨j0, hj0⟩ := hex
  obtain ⟨k, hk⟩ := find_isSome_of_slot j0 hj0
  have hspec := (find_some_iff g id k).1 hk
  have hdev : ∀ j, (Function.update g k (⟨id, cb2, ctx2⟩ : CryptoCb) j).devId = (g j).devId := by
    intro j
    rw [update_devId]
    by_cases hjk : j = k
    · rw [if_pos hjk, hjk, hspec.1]
    · rw [if_neg hjk]
  refine ⟨k, hspec, ?_⟩
  rw [register_of_find_some hk]
  refine ⟨rfl, by simp, fun j hj => Function.update_noteq hj _ _, ?_, ?_⟩
  · unfold occupancy
    congr 1
    apply Finset.filter_congr
    intro j _
    rw [hdev j]
  · rw [find_congr_devId hdev id]
    exact hk

/-- Claim C7 at a concrete input: identifier 3 is registered again in the full table. -/
theorem reregister_overwrites_in_place_witness :
    (3 : Int) ≠ -2 ∧ (∃ j, (fullTable j).devId = 3) ∧
      ∃ k : Fin MAX_CRYPTO_DEVID_CALLBACKS,
        ((fullTable k).devId = 3 ∧ ∀ j, j < k → (fullTable j).devId ≠ 3) ∧
        (wc_CryptoCb_RegisterDevice (-2) (-132) fullTable 3 77 88).1 = 0 ∧
        (wc_CryptoCb_RegisterDevice (-2) (-132) fullTable 3 77 88).2 k = ⟨3, 77, 88⟩ ∧
        (∀ j, j ≠ k → (wc_CryptoCb_RegisterDevice (-2) (-132) fullTable 3 77 88).2 j
          = fullTable j) ∧
        occupancy (-2) (wc_CryptoCb_RegisterDevice (-2) (-132) fullTable 3 77 88).2
          = occupancy (-2) fullTable ∧
        wc_CryptoCb_FindDevice (wc_CryptoCb_RegisterDevice (-2) (-132) fullTable 3 77 88).2 3
          = some k :=
  ⟨by decide, by decide,
    reregister_overwrites_in_place (-2) (-132) fullTable 3 77 88 (by decide) (by decide)⟩

/-- Claim C8: for every dispatcher and argument tuple, the descriptor handed to the
callback in an invocation has the union member of that operation, and every field of it
equals the argument of the dispatcher it is named after; no argument is dropped, swapped
or altered. -/
theorem descriptor_fields_equal_arguments (NOT_COMPILED_IN : Int) (run : CallbackEnv)
    (g : Table) (c : DispatchCall) (inv : Invocation)
    (h : inv ∈ (dispatch NOT_COMPILED_IN run g c).calls) :
    fieldsEqualArguments c inv.info :=
  (dispatch_calls_mem NOT_COMPILED_IN run g c inv h).2

/-- Claim C8 at a concrete input: the invocation an RSA call makes in the full table. -/
theorem descriptor_fields_equal_arguments_witness :
    (⟨102, 3, rsaInfoOnThree, 202⟩ : Invocation)
        ∈ (dispatch (-174) sumRun fullTable rsaCallOnThree).calls ∧
      fieldsEqualArguments rsaCallOnThree rsaInfoOnThree :=
  ⟨by decide,
    descriptor_fields_equal_arguments (-174) sumRun fullTable rsaCallOnThree
      ⟨102, 3, rsaInfoOnThree, 202⟩ (by decide)⟩

/-- Claim C9: the descriptor of every invocation carries the tags of its dispatcher as
the specification lists them (`algo_type`, nested `type`, direction flag `enc`), and
that list maps the thirteen dispatchers to tags injectively. -/
theorem descriptor_tags_identify_dispatcher :
    (∀ (NOT_COMPILED_IN : Int) (run : CallbackEnv) (g : Table) (c : DispatchCall)
        (inv : Invocation), inv ∈ (dispatch NOT_COMPILED_IN run g c).calls →
        inv.info.tags = expectedTags c.dispatcher) ∧
      Function.Injective expectedTags := by
  refine ⟨fun NCI run g c inv h => (dispatch_calls_mem NCI run g c inv h).1, ?_⟩
  intro a b hab
  cases a <;> cases b <;> first | rfl | (simp [expectedTags] at hab)

/-- Claim C9 at a concrete input: the tags of the invocation an RSA call makes in the
full table. -/
theorem descriptor_tags_identify_dispatcher_witness :
    (⟨102, 3, rsaInfoOnThree, 202⟩ : Invocation)
        ∈ (dispatch (-174) sumRun fullTable rsaCallOnThree).calls ∧
      rsaInfoOnThree.tags = expectedTags .Rsa :=
  ⟨by decide,
    descriptor_tags_identify_dispatcher.1 (-174) sumRun fullTable rsaCallOnThree
      ⟨102, 3, rsaInfoOnThree, 202⟩ (by decide)⟩

/-- Claim C10, amended: `wc_CryptoCb_UnRegisterDevice(id)` leaves the table as it was
when no slot has `devId` equal to `id`; otherwise the first slot whose `devId` is `id`
becomes `{devId = INVALID_DEVID, cb = null, ctx = null}` and every other slot keeps its
three fields, so at most one slot changes; that slot does change, so exactly one slot
changes, when `id` is not `INVALID_DEVID` or the slot held a callback or a context. -/
theorem unregister_frame (INVALID_DEVID : Int) (g : Table) (id : Int) :
    ((∀ j, (g j).devId ≠ id) → wc_CryptoCb_UnRegisterDevice INVALID_DEVID g id = g) ∧
      (∀ k : Fin MAX_CRYPTO_DEVID_CALLBACKS, (g k).devId = id → (∀ j, j < k → (g j).devId ≠ id) →
        wc_CryptoCb_UnRegisterDevice INVALID_DEVID g id k = ⟨INVALID_DEVID, NULL, NULL⟩ ∧
        (∀ j, j ≠ k → wc_CryptoCb_UnRegisterDevice INVALID_DEVID g id j = g j) ∧
        ((id ≠ INVALID_DEVID ∨ (g k).cb ≠ NULL ∨ (g k).ctx ≠ NULL) →
          wc_CryptoCb_UnRegisterDevice INVALID_DEVID g id k ≠ g k)) := by
  constructor
  · intro h
    exact unregister_of_find_none ((find_none_iff g id).2 h)
  · intro k hk hmin
    have hfind : wc_CryptoCb_FindDevice g id = some k := (find_some_iff g id k).2 ⟨hk, hmin⟩
    rw [unregister_of_find_some hfind]
    refine ⟨by simp, fun j hj => Function.update_noteq hj _ _, ?_⟩
    intro hch heq
    rw [Function.update_same] at heq
    have h1 : (g k).devId = INVALID_DEVID := by rw [← heq]
    have h2 : (g k).cb = NULL := by rw [← heq]
    have h3 : (g k).ctx = NULL := by rw [← heq]
    rcases hch with h | h | h
    · exact h (hk.symm.trans h1)
    · exact h h2
    · exact h h3

/-- Claim C10, amended, at a concrete input: identifier 3 is unregistered from the full
table, where slot 2 carries it; identifier 9, which no slot carries, is unregistered
too. -/
theorem unregister_frame_witness :
    ((fullTable 2).devId = 3 ∧ (∀ j, j < (2 : Fin MAX_CRYPTO_DEVID_CALLBACKS) →
        (fullTable j).devId ≠ 3) ∧ (∀ j, (fullTable j).devId ≠ 9)) ∧
      wc_CryptoCb_UnRegisterDevice (-2) fullTable 9 = fullTable ∧
      wc_CryptoCb_UnRegisterDevice (-2) fullTable 3 2 = ⟨-2, NULL, NULL⟩ ∧
      (∀ j, j ≠ 2 → wc_CryptoCb_UnRegisterDevice (-2) fullTable 3 j = fullTable j) ∧
      wc_CryptoCb_UnRegisterDevice (-2) fullTable 3 2 ≠ fullTable 2 :=
  have h := (unregister_frame (-2) fullTable 3).2 2 (by decide) (by decide)
  ⟨⟨by decide, by decide, by decide⟩, (unregister_frame (-2) fullTable 9).1 (by decide),
    h.1, h.2.1, h.2.2 (Or.inl (by decide))⟩

/-- Claim C10 fails for the identifier `INVALID_DEVID` on a slot without callback and
context: in the table `wc_CryptoCb_Init()` makes of the zeroed static storage (with
`INVALID_DEVID` = -2) a slot has `devId` equal to -2, yet after
`wc_CryptoCb_UnRegisterDevice(-2)` no slot differs from what it was, so it is not the
case that exactly one slot changes. -/
theorem unregister_sentinel_changes_no_slot :
    (∃ j, (wc_CryptoCb_Init (-2) zeroTable j).devId = -2) ∧
      ¬ ∃ i, wc_CryptoCb_UnRegisterDevice (-2) (wc_CryptoCb_Init (-2) zeroTable) (-2) i
          ≠ wc_CryptoCb_Init (-2) zeroTable i := by
  decide

/-! ## Further lemmas on the registry -/

/-- Overwriting a slot that does not carry `d` with a value that does not carry `d`
leaves the lookup of `d` as it was. -/
theorem find_update_other (g : Table) (k : Fin MAX_CRYPTO_DEVID_CALLBACKS) (v : CryptoCb)
    (d : Int) (h1 : (g k).devId ≠ d) (h2 : v.devId ≠ d) :
    wc_CryptoCb_FindDevice (Function.update g k v) d = wc_CryptoCb_FindDevice g d := by
  have hiff : ∀ i, (Function.update g k v i).devId = d ↔ (g i).devId = d := by
    intro i
    rw [update_devId]
    by_cases hik : i = k
    · rw [if_pos hik, hik]
      exact ⟨fun h => absurd h h2, fun h => absurd h h1⟩
    · rw [if_neg hik]
  cases hr : wc_CryptoCb_FindDevice g d with
  | some j =>
    rw [find_some_iff] at hr ⊢
    exact ⟨(hiff j).2 hr.1, fun i hi h => hr.2 i hi ((hiff i).1 h)⟩
  | none =>
    rw [find_none_iff] at hr ⊢
    exact fun i h => hr i ((hiff i).1 h)

/-- Overwriting a slot with a sentinel value or a value with a callback keeps every
slot a sentinel slot or a slot with a callback. -/
theorem sentinelOrCallback_update (I : Int) (g : Table) (k : Fin MAX_CRYPTO_DEVID_CALLBACKS)
    (v : CryptoCb) (hg : SentinelOrCallback I g) (hv : v.devId = I ∨ v.cb ≠ NULL) :
    SentinelOrCallback I (Function.update g k v) := by
  intro i
  by_cases hik : i = k
  · rw [hik, Function.update_same]
    by_cases hd : v.devId = I
    · exact Or.inl hd
    · exact Or.inr ⟨hd, hv.resolve_left hd⟩
  · rw [Function.update_noteq hik]
    exact hg i

/-- A registry call that registers no identifier other than the sentinel with a null
callback keeps every slot a sentinel slot or a slot with a callback. -/
theorem sentinelOrCallback_apply (I B : Int) (g : Table) (op : RegistryCall)
    (hop : ∀ d cb ctx, op = .register d cb ctx → d ≠ I → cb ≠ NULL)
    (hg : SentinelOrCallback I g) : SentinelOrCallback I (op.apply I B g) := by
  cases op with
  | init => exact fun i => Or.inl rfl
  | register d cb ctx =>
    have hv : (⟨d, cb, ctx⟩ : CryptoCb).devId = I ∨ (⟨d, cb, ctx⟩ : CryptoCb).cb ≠ NULL := by
      by_cases hd : d = I
      · exact Or.inl hd
      · exact Or.inr (hop d cb ctx rfl hd)
    simp only [RegistryCall.apply]
    cases hf : wc_CryptoCb_FindDevice g d with
    | some k =>
      rw [register_of_find_some hf]
      exact sentinelOrCallback_update I g k _ hg hv
    | none =>
      cases hI : wc_CryptoCb_FindDevice g I with
      | some k =>
        rw [register_of_find_free hf hI]
        exact sentinelOrCallback_update I g k _ hg hv
      | none =>
        rw [register_of_find_none hf hI]
        exact hg
  | unregister d =>
    simp only [RegistryCall.apply]
    cases hf : wc_CryptoCb_FindDevice g d with
    | some k =>
      rw [unregister_of_find_some hf]
      exact sentinelOrCallback_update I g k _ hg (Or.inl rfl)
    | none =>
      rw [unregister_of_find_none hf]
      exact hg

/-- A sequence of such registry calls keeps every slot a sentinel slot or a slot with a
callback. -/
theorem sentinelOrCallback_runCalls (I B : Int) (ops : List RegistryCall) (g : Table)
    (hops : ∀ d cb ctx, RegistryCall.register d cb ctx ∈ ops → d ≠ I → cb ≠ NULL)
    (hg : SentinelOrCallback I g) : SentinelOrCallback I (runCalls I B g ops) := by
  induction ops generalizing g with
  | nil => exact hg
  | cons op ops ih =>
    refine ih _ (fun d cb ctx hm => hops d cb ctx (List.mem_cons_of_mem _ hm)) ?_
    exact sentinelOrCallback_apply I B g op
      (fun d cb ctx he => hops d cb ctx (by rw [he]; exact List.mem_cons_self _ _)) hg

/-! ## The claims, continued -/

/-- Claim C11: `wc_CryptoCb_Init()` applied to any table gives a table whose slots all
have `devId = INVALID_DEVID`, so the lookup of every identifier other than
`INVALID_DEVID` finds no slot; and applying it twice gives the same table as applying it
once. -/
theorem init_resets_every_slot (INVALID_DEVID : Int) (g : Table) :
    (∀ i, (wc_CryptoCb_Init INVALID_DEVID g i).devId = INVALID_DEVID) ∧
      (∀ d, d ≠ INVALID_DEVID →
        wc_CryptoCb_FindDevice (wc_CryptoCb_Init INVALID_DEVID g) d = none) ∧
      wc_CryptoCb_Init INVALID_DEVID (wc_CryptoCb_Init INVALID_DEVID g)
        = wc_CryptoCb_Init INVALID_DEVID g := by
  refine ⟨fun i => rfl, fun d hd => ?_, rfl⟩
  rw [find_none_iff]
  intro j hj
  exact hd hj.symm

/-- Claim C11 at a concrete input: the full table is reset and identifier 3 looked up. -/
theorem init_resets_every_slot_witness :
    (∀ i, (wc_CryptoCb_Init (-2) fullTable i).devId = -2) ∧
      wc_CryptoCb_FindDevice (wc_CryptoCb_Init (-2) fullTable) 3 = none ∧
      wc_CryptoCb_Init (-2) (wc_CryptoCb_Init (-2) fullTable) = wc_CryptoCb_Init (-2) fullTable :=
  have h := init_resets_every_slot (-2) fullTable
  ⟨h.1, h.2.1 3 (by decide), h.2.2⟩

/-- Claim C12, amended: in every table reached from `wc_CryptoCb_Init()` by register,
unregister and init calls in which every registration of an identifier other than
`INVALID_DEVID` passes a callback that is not null, every slot has
`devId = INVALID_DEVID` or has a `devId` other than the sentinel and a callback that is
not null. -/
theorem steady_state_sentinel_or_callback (INVALID_DEVID BUFFER_E : Int) (g0 : Table)
    (ops : List RegistryCall)
    (hops : ∀ d cb ctx, RegistryCall.register d cb ctx ∈ ops → d ≠ INVALID_DEVID → cb ≠ NULL)
    (i : Fin MAX_CRYPTO_DEVID_CALLBACKS) :
    (runCalls INVALID_DEVID BUFFER_E (wc_CryptoCb_Init INVALID_DEVID g0) ops i).devId
        = INVALID_DEVID ∨
      ((runCalls INVALID_DEVID BUFFER_E (wc_CryptoCb_Init INVALID_DEVID g0) ops i).devId
          ≠ INVALID_DEVID ∧
        (runCalls INVALID_DEVID BUFFER_E (wc_CryptoCb_Init INVALID_DEVID g0) ops i).cb ≠ NULL) :=
  sentinelOrCallback_runCalls INVALID_DEVID BUFFER_E ops _ hops (fun _ => Or.inl rfl) i

/-- Claim C12, amended, at a concrete input: slot 0 after four calls, none of which
registers an identifier other than the sentinel with a null callback. -/
theorem steady_state_sentinel_or_callback_witness :
    (∀ d cb ctx, RegistryCall.register d cb ctx ∈
        [RegistryCall.register 5 7 9, .unregister 5, .register 6 1 1, .register (-2) 0 3] →
        d ≠ -2 → cb ≠ NULL) ∧
      ((runCalls (-2) (-132) (wc_CryptoCb_Init (-2) zeroTable)
          [.register 5 7 9, .unregister 5, .register 6 1 1, .register (-2) 0 3] 0).devId = -2 ∨
        ((runCalls (-2) (-132) (wc_CryptoCb_Init (-2) zeroTable)
            [.register 5 7 9, .unregister 5, .register 6 1 1, .register (-2) 0 3] 0).devId ≠ -2 ∧
          (runCalls (-2) (-132) (wc_CryptoCb_Init (-2) zeroTable)
            [.register 5 7 9, .unregister 5, .register 6 1 1, .register (-2) 0 3] 0).cb ≠ NULL)) :=
  have hops : ∀ d cb ctx, RegistryCall.register d cb ctx ∈
      [RegistryCall.register 5 7 9, .unregister 5, .register 6 1 1, .register (-2) 0 3] →
      d ≠ -2 → cb ≠ NULL := by
    intro d cb ctx hm hd
    simp only [List.mem_cons, RegistryCall.register.injEq, List.mem_singleton, List.not_mem_nil,
      or_false, reduceCtorEq, false_or] at hm
    rcases hm with ⟨-, h, -⟩ | ⟨-, h, -⟩ | ⟨h, -, -⟩
    · rw [h]; decide
    · rw [h]; decide
    · exact absurd h hd
  ⟨hops, steady_state_sentinel_or_callback (-2) (-132) zeroTable _ hops 0⟩

/-- Claim C12 fails when a null callback is registered: after `wc_CryptoCb_Init()` and
`wc_CryptoCb_RegisterDevice(5, NULL, 9)` slot 0 has `devId` 5, which is not
`INVALID_DEVID` (here -2), and a null callback. -/
theorem register_null_callback_breaks_steady_state :
    (runCalls (-2) (-132) (wc_CryptoCb_Init (-2) zeroTable) [.register 5 0 9] 0).devId ≠ -2 ∧
      (runCalls (-2) (-132) (wc_CryptoCb_Init (-2) zeroTable) [.register 5 0 9] 0).cb = NULL := by
  decide

/-- Claim C13: no dispatcher modifies the registry; for every dispatcher, table and
argument tuple the table after the call is the table before it, whether a callback was
invoked or not.  Callbacks return a value and do not call the registry functions. -/
theorem dispatch_leaves_table (NOT_COMPILED_IN : Int) (run : CallbackEnv) (g : Table)
    (c : DispatchCall) : (dispatch NOT_COMPILED_IN run g c).table = g := by
  cases hfind : wc_CryptoCb_FindDevice g c.devId with
  | none =>
    rw [dispatch_not_handled NOT_COMPILED_IN run g c (fun k hk => by rw [hfind] at hk; cases hk)]
  | some k =>
    by_cases hcb : (g k).cb = NULL
    · rw [dispatch_not_handled NOT_COMPILED_IN run g c (fun k2 hk => by
        rw [hfind] at hk; cases hk; exact hcb)]
    · obtain ⟨info, -, -, h⟩ := dispatch_handled NOT_COMPILED_IN run g c k hfind hcb
      rw [h]

/-- Claim C14, amended: a successful `wc_CryptoCb_RegisterDevice(id, cb, ctx)` writes
one slot, which then holds `{id, cb, ctx}`, and leaves every other slot as it was, so at
most one slot changes; and for every identifier `d` other than `id` and other than
`INVALID_DEVID` the lookup of `d` returns the same slot, with the same content, after
the call as before it. -/
theorem register_frame (INVALID_DEVID BUFFER_E : Int) (hB : BUFFER_E ≠ 0) (g : Table)
    (id : Int) (cb : CryptoDevCallbackFunc) (ctx : Ptr)
    (hret : (wc_CryptoCb_RegisterDevice INVALID_DEVID BUFFER_E g id cb ctx).1 = 0) :
    (∃ k : Fin MAX_CRYPTO_DEVID_CALLBACKS,
        (wc_CryptoCb_RegisterDevice INVALID_DEVID BUFFER_E g id cb ctx).2 k = ⟨id, cb, ctx⟩ ∧
        ∀ j, j ≠ k → (wc_CryptoCb_RegisterDevice INVALID_DEVID BUFFER_E g id cb ctx).2 j = g j) ∧
      (∀ d, d ≠ id → d ≠ INVALID_DEVID →
        wc_CryptoCb_FindDevice (wc_CryptoCb_RegisterDevice INVALID_DEVID BUFFER_E g id cb ctx).2 d
          = wc_CryptoCb_FindDevice g d ∧
        ∀ j, wc_CryptoCb_FindDevice g d = some j →
          (wc_CryptoCb_RegisterDevice INVALID_DEVID BUFFER_E g id cb ctx).2 j = g j) := by
  have key : ∀ k : Fin MAX_CRYPTO_DEVID_CALLBACKS,
      ((g k).devId = id ∨ (g k).devId = INVALID_DEVID) →
      (∃ k2 : Fin MAX_CRYPTO_DEVID_CALLBACKS,
        Function.update g k (⟨id, cb, ctx⟩ : CryptoCb) k2 = ⟨id, cb, ctx⟩ ∧
        ∀ j, j ≠ k2 → Function.update g k (⟨id, cb, ctx⟩ : CryptoCb) j = g j) ∧
      (∀ d, d ≠ id → d ≠ INVALID_DEVID →
        wc_CryptoCb_FindDevice (Function.update g k (⟨id, cb, ctx⟩ : CryptoCb)) d
          = wc_CryptoCb_FindDevice g d ∧
        ∀ j, wc_CryptoCb_FindDevice g d = some j →
          Function.update g k (⟨id, cb, ctx⟩ : CryptoCb) j = g j) := by
    intro k hk
    refine ⟨⟨k, Function.update_same _ _ _, fun j hj => Function.update_noteq hj _ _⟩, ?_⟩
    intro d hd hdI
    have hkd : (g k).devId ≠ d := by
      rcases hk with h | h
      · rw [h]; exact fun e => hd e.symm
      · rw [h]; exact fun e => hdI e.symm
    refine ⟨find_update_other g k _ d hkd (fun e => hd e.symm), fun j hj => ?_⟩
    have hjk : j ≠ k := by
      intro e
      rw [e] at hj
      exact hkd (find_some_devId hj)
    exact Function.update_noteq hjk _ _
  cases hf : wc_CryptoCb_FindDevice g id with
  | some k =>
    rw [register_of_find_some hf]
    exact key k (Or.inl (find_some_devId hf))
  | none =>
    cases hI : wc_CryptoCb_FindDevice g INVALID_DEVID with
    | some k =>
      rw [register_of_find_free hf hI]
      exact key k (Or.inr (find_some_devId hI))
    | none =>
      rw [register_of_find_none hf hI] at hret
      exact absurd hret hB

/-- Claim C14, amended, at a concrete input: identifier 3 is registered again in the
full table and identifier 4 is looked up. -/
theorem register_frame_witness :
    (-132 : Int) ≠ 0 ∧ (wc_CryptoCb_RegisterDevice (-2) (-132) fullTable 3 77 88).1 = 0 ∧
      (∃ k : Fin MAX_CRYPTO_DEVID_CALLBACKS,
        (wc_CryptoCb_RegisterDevice (-2) (-132) fullTable 3 77 88).2 k = ⟨3, 77, 88⟩ ∧
        ∀ j, j ≠ k → (wc_CryptoCb_RegisterDevice (-2) (-132) fullTable 3 77 88).2 j
          = fullTable j) ∧
      (wc_CryptoCb_FindDevice (wc_CryptoCb_RegisterDevice (-2) (-132) fullTable 3 77 88).2 4
          = wc_CryptoCb_FindDevice fullTable 4 ∧
        ∀ j, wc_CryptoCb_FindDevice fullTable 4 = some j →
          (wc_CryptoCb_RegisterDevice (-2) (-132) fullTable 3 77 88).2 j = fullTable j) :=
  have h := register_frame (-2) (-132) (by decide) fullTable 3 77 88 (by decide)
  ⟨by decide, by decide, h.1, h.2 4 (by decide) (by decide)⟩

/-- Claim C14 fails when the values registered are those the slot already holds:
`wc_CryptoCb_RegisterDevice(3, 102, 202)` in the full table, whose slot 2 is
`{3, 102, 202}`, returns 0 and no slot differs from what it was, so it is not the case
that exactly one slot changes. -/
theorem register_same_values_changes_no_slot :
    (wc_CryptoCb_RegisterDevice (-2) (-132) fullTable 3 102 202).1 = 0 ∧
      ¬ ∃ i, (wc_CryptoCb_RegisterDevice (-2) (-132) fullTable 3 102 202).2 i ≠ fullTable i := by
  decide

/-- Claim C15: in a table with a sentinel slot, `wc_CryptoCb_RegisterDevice` of
`INVALID_DEVID` returns 0, stores `cb` and `ctx` in the first sentinel slot, leaves the
other slots and the number of non-sentinel slots unchanged; then a dispatcher called on
an object whose `devId` is `INVALID_DEVID` invokes `cb` with `ctx` when `cb` is not
null, and a following registration of an identifier that no slot carries overwrites
that same slot with its own callback and context. -/
theorem register_sentinel_takes_no_slot (INVALID_DEVID BUFFER_E : Int) (g : Table)
    (cb : CryptoDevCallbackFunc) (ctx : Ptr) (hex : ∃ j, (g j).devId = INVALID_DEVID) :
    ∃ k : Fin MAX_CRYPTO_DEVID_CALLBACKS,
      ((g k).devId = INVALID_DEVID ∧ ∀ j, j < k → (g j).devId ≠ INVALID_DEVID) ∧
      (wc_CryptoCb_RegisterDevice INVALID_DEVID BUFFER_E g INVALID_DEVID cb ctx).1 = 0 ∧
      (wc_CryptoCb_RegisterDevice INVALID_DEVID BUFFER_E g INVALID_DEVID cb ctx).2 k
        = ⟨INVALID_DEVID, cb, ctx⟩ ∧
      (∀ j, j ≠ k →
        (wc_CryptoCb_RegisterDevice INVALID_DEVID BUFFER_E g INVALID_DEVID cb ctx).2 j = g j) ∧
      occupancy INVALID_DEVID
          (wc_CryptoCb_RegisterDevice INVALID_DEVID BUFFER_E g INVALID_DEVID cb ctx).2
        = occupancy INVALID_DEVID g ∧
      (∀ (NOT_COMPILED_IN : Int) (run : CallbackEnv) (c : DispatchCall),
        c.devId = INVALID_DEVID → cb ≠ NULL →
        ∃ info : wc_CryptoInfo,
          (dispatch NOT_COMPILED_IN run
            (wc_CryptoCb_RegisterDevice INVALID_DEVID BUFFER_E g INVALID_DEVID cb ctx).2 c).calls
            = [{ cb := cb, devId := INVALID_DEVID, info := info, ctx := ctx }] ∧
          (dispatch NOT_COMPILED_IN run
            (wc_CryptoCb_RegisterDevice INVALID_DEVID BUFFER_E g INVALID_DEVID cb ctx).2 c).ret
            = run cb INVALID_DEVID info ctx) ∧
      (∀ (d : Int) (cb2 : CryptoDevCallbackFunc) (ctx2 : Ptr),
        (∀ j, ((wc_CryptoCb_RegisterDevice INVALID_DEVID BUFFER_E g INVALID_DEVID cb ctx).2
          j).devId ≠ d) →
        (wc_CryptoCb_RegisterDevice INVALID_DEVID BUFFER_E
          (wc_CryptoCb_RegisterDevice INVALID_DEVID BUFFER_E g INVALID_DEVID cb ctx).2
          d cb2 ctx2).1 = 0 ∧
        (wc_CryptoCb_RegisterDevice INVALID_DEVID BUFFER_E
          (wc_CryptoCb_RegisterDevice INVALID_DEVID BUFFER_E g INVALID_DEVID cb ctx).2
          d cb2 ctx2).2 k = ⟨d, cb2, ctx2⟩ ∧
        ∀ j, j ≠ k →
          (wc_CryptoCb_RegisterDevice INVALID_DEVID BUFFER_E
            (wc_CryptoCb_RegisterDevice INVALID_DEVID BUFFER_E g INVALID_DEVID cb ctx).2
            d cb2 ctx2).2 j = g j) := by
  obtain ⟨j0, hj0⟩ := hex
  obtain ⟨k, hk⟩ := find_isSome_of_slot j0 hj0
  have hspec := (find_some_iff g INVALID_DEVID k).1 hk
  have hdev : ∀ j, (Function.update g k (⟨INVALID_DEVID, cb, ctx⟩ : CryptoCb) j).devId
      = (g j).devId := by
    intro j
    rw [update_devId]
    by_cases hjk : j = k
    · rw [if_pos hjk, hjk, hspec.1]
    · rw [if_neg hjk]
  have hk2 : wc_CryptoCb_FindDevice (Function.update g k (⟨INVALID_DEVID, cb, ctx⟩ : CryptoCb))
      INVALID_DEVID = some k := by
    rw [find_congr_devId hdev INVALID_DEVID]
    exact hk
  refine ⟨k, hspec, ?_⟩
  rw [register_of_find_some hk]
  refine ⟨rfl, Function.update_same _ _ _, fun j hj => Function.update_noteq hj _ _, ?_, ?_, ?_⟩
  · unfold occupancy
    congr 1
    apply Finset.filter_congr
    intro j _
    rw [hdev j]
  · intro NCI run c hc hcb
    have hfind : wc_CryptoCb_FindDevice
        (Function.update g k (⟨INVALID_DEVID, cb, ctx⟩ : CryptoCb)) c.devId = some k := by
      rw [hc]; exact hk2
    have hcb2 : (Function.update g k (⟨INVALID_DEVID, cb, ctx⟩ : CryptoCb) k).cb ≠ NULL := by
      rw [Function.update_same]; exact hcb
    obtain ⟨info, -, -, h⟩ := dispatch_handled NCI run _ c k hfind hcb2
    refine ⟨info, ?_, ?_⟩
    · rw [h, hc, Function.update_same]
    · rw [h, hc, Function.update_same]
  · intro d cb2 ctx2 hd
    have hnone : wc_CryptoCb_FindDevice
        (Function.update g k (⟨INVALID_DEVID, cb, ctx⟩ : CryptoCb)) d = none :=
      (find_none_iff _ _).2 hd
    rw [register_of_find_free hnone hk2]
    refine ⟨rfl, Function.update_same _ _ _, fun j hj => ?_⟩
    show Function.update (Function.update g k _) k _ j = g j
    rw [Function.update_noteq hj, Function.update_noteq hj]

/-- Claim C16, amended: `wc_CryptoCb_Ecdh` selects the device from the private key only.
The first argument of every invocation is the `devId` of the private key; whether a
callback is invoked, which callback, with which identifier and which context, is the
same for any two public keys; it is the callback and context of the slot found for the
private key when that slot has a callback; without such a slot no callback is invoked
and `NOT_COMPILED_IN` is returned, whatever the public key carries; and the two return
values are equal whenever the callback returns the same value on the two invocations. -/
theorem ecdh_selects_by_private_key (NOT_COMPILED_IN : Int) (run : CallbackEnv) (g : Table)
    (private_key public_key1 public_key2 : ecc_key) (out outlen : Ptr) :
    (∀ inv ∈ (wc_CryptoCb_Ecdh NOT_COMPILED_IN run g private_key public_key1 out outlen).calls,
        inv.devId = private_key.devId) ∧
      ((wc_CryptoCb_Ecdh NOT_COMPILED_IN run g private_key public_key1 out outlen).calls.map
          (fun inv => (inv.cb, inv.devId, inv.ctx))
        = (wc_CryptoCb_Ecdh NOT_COMPILED_IN run g private_key public_key2 out outlen).calls.map
          (fun inv => (inv.cb, inv.devId, inv.ctx))) ∧
      (∀ k, wc_CryptoCb_FindDevice g private_key.devId = some k → (g k).cb ≠ NULL →
        (wc_CryptoCb_Ecdh NOT_COMPILED_IN run g private_key public_key1 out outlen).calls.map
          (fun inv => (inv.cb, inv.devId, inv.ctx)) = [((g k).cb, private_key.devId, (g k).ctx)]) ∧
      ((∀ k, wc_CryptoCb_FindDevice g private_key.devId = some k → (g k).cb = NULL) →
        (wc_CryptoCb_Ecdh NOT_COMPILED_IN run g private_key public_key1 out outlen).calls = [] ∧
        (wc_CryptoCb_Ecdh NOT_COMPILED_IN run g private_key public_key1 out outlen).ret
          = NOT_COMPILED_IN) ∧
      ((∀ inv1 ∈
          (wc_CryptoCb_Ecdh NOT_COMPILED_IN run g private_key public_key1 out outlen).calls,
        ∀ inv2 ∈
          (wc_CryptoCb_Ecdh NOT_COMPILED_IN run g private_key public_key2 out outlen).calls,
          run inv1.cb inv1.devId inv1.info inv1.ctx = run inv2.cb inv2.devId inv2.info inv2.ctx) →
        (wc_CryptoCb_Ecdh NOT_COMPILED_IN run g private_key public_key1 out outlen).ret
          = (wc_CryptoCb_Ecdh NOT_COMPILED_IN run g private_key public_key2 out outlen).ret) := by
  cases hf : wc_CryptoCb_FindDevice g private_key.devId with
  | none =>
    simp [wc_CryptoCb_Ecdh, hf]
  | some k =>
    by_cases hcb : (g k).cb = NULL
    · simp [wc_CryptoCb_Ecdh, hf, hcb]
    · simp [wc_CryptoCb_Ecdh, hf, hcb]

/-- Claim C16 fails for the return value: the public key is handed to the callback in
the descriptor, and a callback that returns the `devId` it reads from the public key
makes `wc_CryptoCb_Ecdh` return 1 and 2 for two public keys at the same address that
differ only in their `devId`. -/
theorem ecdh_return_value_depends_on_public_key :
    (wc_CryptoCb_Ecdh (-174) publicKeyDevIdRun fullTable ⟨8, 3⟩ ⟨9, 1⟩ 0 0).ret = 1 ∧
      (wc_CryptoCb_Ecdh (-174) publicKeyDevIdRun fullTable ⟨8, 3⟩ ⟨9, 2⟩ 0 0).ret = 2 := by
  decide

/-- Claim C17: `wc_CryptoCb_FindDevice(d)` returns the slot of lowest index whose `devId`
is `d`, returns nothing if and only if no slot has `devId` equal to `d`, and so returns
a slot whenever some slot carries `d`: the scan over the eight slots is complete. -/
theorem findDevice_first_match (g : Table) (d : Int) :
    (∀ k, wc_CryptoCb_FindDevice g d = some k ↔
        ((g k).devId = d ∧ ∀ j, j < k → (g j).devId ≠ d)) ∧
      (wc_CryptoCb_FindDevice g d = none ↔ ∀ j, (g j).devId ≠ d) ∧
      ((∃ j, (g j).devId = d) → ∃ k, wc_CryptoCb_FindDevice g d = some k) :=
  ⟨fun k => find_some_iff g d k, find_none_iff g d, fun ⟨j, hj⟩ => find_isSome_of_slot j hj⟩

/-- Claim C13 at a concrete input: an RSA call in the full table, where a callback is
invoked. -/
theorem dispatch_leaves_table_witness :
    (dispatch (-174) sumRun fullTable rsaCallOnThree).calls ≠ [] ∧
      (dispatch (-174) sumRun fullTable rsaCallOnThree).table = fullTable :=
  ⟨by decide, dispatch_leaves_table (-174) sumRun fullTable rsaCallOnThree⟩

/-- Claim C15 at a concrete input: the sentinel is registered with callback 7 and
context 9 in the table the reset of the full table gives. -/
theorem register_sentinel_takes_no_slot_witness :
    (∃ j, (wc_CryptoCb_Init (-2) fullTable j).devId = -2) ∧
      ∃ k : Fin MAX_CRYPTO_DEVID_CALLBACKS,
        ((wc_CryptoCb_Init (-2) fullTable k).devId = -2 ∧
          ∀ j, j < k → (wc_CryptoCb_Init (-2) fullTable j).devId ≠ -2) ∧
        (wc_CryptoCb_RegisterDevice (-2) (-132) (wc_CryptoCb_Init (-2) fullTable) (-2) 7 9).1 = 0 ∧
        (wc_CryptoCb_RegisterDevice (-2) (-132) (wc_CryptoCb_Init (-2) fullTable) (-2) 7 9).2 k
          = ⟨-2, 7, 9⟩ :=
  ⟨by decide,
    (register_sentinel_takes_no_slot (-2) (-132) (wc_CryptoCb_Init (-2) fullTable) 7 9
      (by decide)).imp (fun _ h => ⟨h.1, h.2.1, h.2.2.1⟩)⟩

/-- Claim C16, amended, at a concrete input: two public keys that differ in their `devId`
only, with a private key whose `devId` is 3, in the full table. -/
theorem ecdh_selects_by_private_key_witness :
    ((wc_CryptoCb_Ecdh (-174) sumRun fullTable ⟨8, 3⟩ ⟨9, 1⟩ 0 0).calls.map
          (fun inv => (inv.cb, inv.devId, inv.ctx))
        = (wc_CryptoCb_Ecdh (-174) sumRun fullTable ⟨8, 3⟩ ⟨9, 2⟩ 0 0).calls.map
          (fun inv => (inv.cb, inv.devId, inv.ctx))) ∧
      (wc_CryptoCb_Ecdh (-174) sumRun fullTable ⟨8, 3⟩ ⟨9, 1⟩ 0 0).calls.map
          (fun inv => (inv.cb, inv.devId, inv.ctx)) = [((fullTable 2).cb, 3, (fullTable 2).ctx)] :=
  have h := ecdh_selects_by_private_key (-174) sumRun fullTable ⟨8, 3⟩ ⟨9, 1⟩ ⟨9, 2⟩ 0 0
  ⟨h.2.1, h.2.2.1 2 (by decide) (by decide)⟩

/-- Claim C17 at a concrete input: identifier 3 is found in slot 2 of the full table,
identifier 9 is not found. -/
theorem findDevice_first_match_witness :
    wc_CryptoCb_FindDevice fullTable 3 = some 2 ∧ wc_CryptoCb_FindDevice fullTable 9 = none :=
  ⟨((findDevice_first_match fullTable 3).1 2).2 (by decide),
    (findDevice_first_match fullTable 9).2.1.2 (by decide)⟩

end WolfCryptoCb
